import Mathlib

/-!
Verification of the ContextOptimizer backend core: schema normalization
(`app/utils/validation.py`), data models (`app/models/agent.py`,
`app/models/message.py`, `app/models/session.py`), cross-validation,
and the result enhancers (`app/core/evaluator.py`, `app/core/optimizer.py`).

JSON values flowing through the Python code are modelled by `JValue`;
Python dicts are association lists with first-match lookup (dicts produced
by `json.loads` have unique keys, for which both semantics agree).
Numeric JSON values are modelled as rationals: the only numeric operations
the modelled fragment performs are order comparisons (`max`/`min` clamping),
on which rationals and IEEE floats agree for the values involved.
-/

namespace CtxOpt

/-- Model of a Python/JSON value as passed around by the backend. -/
inductive JValue where
  | null : JValue
  | bool (b : Bool) : JValue
  | num (q : ℚ) : JValue
  | str (s : String) : JValue
  | arr (elems : List JValue) : JValue
  | obj (fields : List (String × JValue)) : JValue
deriving Repr

mutual

def JValue.deq : (a b : JValue) → Decidable (a = b)
  | .null, .null => .isTrue rfl
  | .bool a, .bool b =>
      if h : a = b then .isTrue (by rw [h]) else .isFalse (by simp [h])
  | .num a, .num b =>
      if h : a = b then .isTrue (by rw [h]) else .isFalse (by simp [h])
  | .str a, .str b =>
      if h : a = b then .isTrue (by rw [h]) else .isFalse (by simp [h])
  | .arr xs, .arr ys =>
      match JValue.deqList xs ys with
      | .isTrue h => .isTrue (by rw [h])
      | .isFalse h => .isFalse (by simp [h])
  | .obj xs, .obj ys =>
      match JValue.deqFields xs ys with
      | .isTrue h => .isTrue (by rw [h])
      | .isFalse h => .isFalse (by simp [h])
  | .null, .bool _ => .isFalse (by simp)
  | .null, .num _ => .isFalse (by simp)
  | .null, .str _ => .isFalse (by simp)
  | .null, .arr _ => .isFalse (by simp)
  | .null, .obj _ => .isFalse (by simp)
  | .bool _, .null => .isFalse (by simp)
  | .bool _, .num _ => .isFalse (by simp)
  | .bool _, .str _ => .isFalse (by simp)
  | .bool _, .arr _ => .isFalse (by simp)
  | .bool _, .obj _ => .isFalse (by simp)
  | .num _, .null => .isFalse (by simp)
  | .num _, .bool _ => .isFalse (by simp)
  | .num _, .str _ => .isFalse (by simp)
  | .num _, .arr _ => .isFalse (by simp)
  | .num _, .obj _ => .isFalse (by simp)
  | .str _, .null => .isFalse (by simp)
  | .str _, .bool _ => .isFalse (by simp)
  | .str _, .num _ => .isFalse (by simp)
  | .str _, .arr _ => .isFalse (by simp)
  | .str _, .obj _ => .isFalse (by simp)
  | .arr _, .null => .isFalse (by simp)
  | .arr _, .bool _ => .isFalse (by simp)
  | .arr _, .num _ => .isFalse (by simp)
  | .arr _, .str _ => .isFalse (by simp)
  | .arr _, .obj _ => .isFalse (by simp)
  | .obj _, .null => .isFalse (by simp)
  | .obj _, .bool _ => .isFalse (by simp)
  | .obj _, .num _ => .isFalse (by simp)
  | .obj _, .str _ => .isFalse (by simp)
  | .obj _, .arr _ => .isFalse (by simp)

def JValue.deqList : (xs ys : List JValue) → Decidable (xs = ys)
  | [], [] => .isTrue rfl
  | [], _ :: _ => .isFalse (by simp)
  | _ :: _, [] => .isFalse (by simp)
  | x :: xs, y :: ys =>
      match JValue.deq x y with
      | .isTrue h₁ =>
          match JValue.deqList xs ys with
          | .isTrue h₂ => .isTrue (by rw [h₁, h₂])
          | .isFalse h₂ => .isFalse (by simp [h₂])
      | .isFalse h₁ => .isFalse (by simp [h₁])

def JValue.deqFields : (xs ys : List (String × JValue)) → Decidable (xs = ys)
  | [], [] => .isTrue rfl
  | [], _ :: _ => .isFalse (by simp)
  | _ :: _, [] => .isFalse (by simp)
  | (k₁, v₁) :: xs, (k₂, v₂) :: ys =>
      if hk : k₁ = k₂ then
        match JValue.deq v₁ v₂ with
        | .isTrue h₁ =>
            match JValue.deqFields xs ys with
            | .isTrue h₂ => .isTrue (by rw [hk, h₁, h₂])
            | .isFalse h₂ => .isFalse (by simp [h₂])
        | .isFalse h₁ => .isFalse (by simp [h₁])
      else .isFalse (by simp [hk])

end

instance : DecidableEq JValue := JValue.deq

/-- First-match association-list lookup, modelling Python `dict[key]` /
`dict.get(key)` for the unique-key dicts produced by `json.loads`. -/
def jlookup : List (String × JValue) → String → Option JValue
  | [], _ => none
  | (k, v) :: rest, key => if k = key then some v else jlookup rest key

/-- Python `key in dict`. -/
def hasKey (fields : List (String × JValue)) (key : String) : Bool :=
  (jlookup fields key).isSome

/-- Python `dict[key] = value`: replaces the first binding of `key`
(keeping its position) or appends a new binding at the end, matching
dict insertion-order semantics. -/
def setKey : List (String × JValue) → String → JValue → List (String × JValue)
  | [], key, v => [(key, v)]
  | (k, w) :: rest, key, v =>
      if k = key then (key, v) :: rest else (k, w) :: setKey rest key v

/-- Decimal digit rendering of a natural number, as produced by a Python
f-string such as `f"msg_{index}"` (`Nat.repr` in Lean renders the same
decimal string; this form is stated via `Nat.digits` so that injectivity
is provable). -/
def natDecimal (n : Nat) : String :=
  if n = 0 then "0"
  else ⟨((Nat.digits 10 n).reverse.map Nat.digitChar)⟩

theorem jlookup_setKey_self (fields : List (String × JValue)) (k : String) (v : JValue) :
    jlookup (setKey fields k v) k = some v := by
  induction fields with
  | nil => simp [setKey, jlookup]
  | cons hd tl ih =>
      obtain ⟨k', v'⟩ := hd
      by_cases h : k' = k
      · simp [setKey, h, jlookup]
      · simp [setKey, h, jlookup, ih]

theorem jlookup_setKey_ne (fields : List (String × JValue)) (k k' : String) (v : JValue)
    (h : k ≠ k') : jlookup (setKey fields k v) k' = jlookup fields k' := by
  induction fields with
  | nil => simp [setKey, jlookup, h]
  | cons hd tl ih =>
      obtain ⟨k₀, v₀⟩ := hd
      by_cases h₀ : k₀ = k
      · subst h₀
        simp [setKey, jlookup, h]
      · simp [setKey, h₀, jlookup, ih]

theorem digitChar_inj_lt10 : ∀ a < 10, ∀ b < 10, Nat.digitChar a = Nat.digitChar b → a = b := by
  decide

theorem map_digitChar_inj {l₁ l₂ : List ℕ} (h₁ : ∀ d ∈ l₁, d < 10) (h₂ : ∀ d ∈ l₂, d < 10)
    (h : l₁.map Nat.digitChar = l₂.map Nat.digitChar) : l₁ = l₂ := by
  induction l₁ generalizing l₂ with
  | nil => cases l₂ <;> simp_all
  | cons a as ih =>
      cases l₂ with
      | nil => simp_all
      | cons b bs =>
          simp only [List.map_cons, List.cons.injEq] at h
          have ha : a < 10 := h₁ a (List.mem_cons_self _ _)
          have hb : b < 10 := h₂ b (List.mem_cons_self _ _)
          have hab := digitChar_inj_lt10 a ha b hb h.1
          have : as = bs := ih (fun d hd => h₁ d (List.mem_cons_of_mem _ hd))
            (fun d hd => h₂ d (List.mem_cons_of_mem _ hd)) h.2
          simp [hab, this]

theorem natDecimal_injective : Function.Injective natDecimal := by
  intro a b hab
  unfold natDecimal at hab
  by_cases ha : a = 0 <;> by_cases hb : b = 0
  · simp [ha, hb]
  · exfalso
    simp only [ha, if_pos rfl, if_neg hb] at hab
    have hdig := @map_digitChar_inj [0] ((Nat.digits 10 b).reverse)
      (by simp) (fun d hd => Nat.digits_lt_base (by norm_num) (List.mem_reverse.mp hd))
      (by
        have : ("0" : String).data = [Nat.digitChar 0] := by decide
        have hd : ("0" : String) = ⟨((Nat.digits 10 b).reverse.map Nat.digitChar)⟩ := hab
        calc ([0] : List ℕ).map Nat.digitChar = ("0" : String).data := by decide
          _ = (Nat.digits 10 b).reverse.map Nat.digitChar := congrArg String.data hd)
    have : Nat.digits 10 b = [0] := by
      have := congrArg List.reverse hdig.symm
      simpa using this
    have hb0 : b = Nat.ofDigits 10 (Nat.digits 10 b) := (Nat.ofDigits_digits 10 b).symm
    rw [this] at hb0
    simp [Nat.ofDigits] at hb0
    exact hb hb0
  · exfalso
    simp only [hb, if_pos rfl, if_neg ha] at hab
    have hdig := @map_digitChar_inj ((Nat.digits 10 a).reverse) [0]
      (fun d hd => Nat.digits_lt_base (by norm_num) (List.mem_reverse.mp hd)) (by simp)
      (by
        have hd : (⟨((Nat.digits 10 a).reverse.map Nat.digitChar)⟩ : String) = "0" := hab
        calc (Nat.digits 10 a).reverse.map Nat.digitChar
            = (⟨((Nat.digits 10 a).reverse.map Nat.digitChar)⟩ : String).data := rfl
          _ = ("0" : String).data := congrArg String.data hd
          _ = ([0] : List ℕ).map Nat.digitChar := by decide)
    have : Nat.digits 10 a = [0] := by
      have := congrArg List.reverse hdig
      simpa using this
    have ha0 : a = Nat.ofDigits 10 (Nat.digits 10 a) := (Nat.ofDigits_digits 10 a).symm
    rw [this] at ha0
    simp [Nat.ofDigits] at ha0
    exact ha ha0
  · simp only [if_neg ha, if_neg hb] at hab
    have hdata := congrArg String.data hab
    simp only [String.data] at hdata
    have hdig := map_digitChar_inj
      (fun d hd => Nat.digits_lt_base (by norm_num) (List.mem_reverse.mp hd))
      (fun d hd => Nat.digits_lt_base (by norm_num) (List.mem_reverse.mp hd)) hdata
    have : Nat.digits 10 a = Nat.digits 10 b := by
      have := congrArg List.reverse hdig
      simpa using this
    calc a = Nat.ofDigits 10 (Nat.digits 10 a) := (Nat.ofDigits_digits 10 a).symm
      _ = Nat.ofDigits 10 (Nat.digits 10 b) := by rw [this]
      _ = b := Nat.ofDigits_digits 10 b

/-- `AgentTool` from `app/models/agent.py`: tool name, description, optional
parameter schema (a JSON object, `Optional[dict]` defaulting to `None`). -/
structure AgentTool where
  name : String
  description : String
  parameters : Option (List (String × JValue)) := none
deriving DecidableEq, Repr

/-- `Agent` from `app/models/agent.py`. -/
structure Agent where
  agent_id : String
  agent_name : String
  version : String := "1.0"
  system_prompt : String
  tools : List AgentTool := []
  metadata : Option (List (String × JValue)) := none
deriving DecidableEq, Repr

/-- `AgentConfig` from `app/models/agent.py`. -/
structure AgentConfig where
  agents : List Agent
  version : Option String := some "1.0"
  metadata : Option (List (String × JValue)) := none
deriving DecidableEq, Repr

/-- `AgentConfig.get_agent_by_id`: first agent with the given id. -/
def AgentConfig.get_agent_by_id (cfg : AgentConfig) (agent_id : String) : Option Agent :=
  cfg.agents.find? (fun a => a.agent_id = agent_id)

/-- `AgentConfig.get_agent_names`. -/
def AgentConfig.get_agent_names (cfg : AgentConfig) : List String :=
  cfg.agents.map Agent.agent_name

/-- `AgentConfig.get_agent_ids`. -/
def AgentConfig.get_agent_ids (cfg : AgentConfig) : List String :=
  cfg.agents.map Agent.agent_id

/-- `MessageType` from `app/models/message.py`. Note the enumeration has
exactly the three members `human`, `ai`, `tool`; there is no `system`
member in the source. -/
inductive MessageType where
  | human : MessageType
  | ai : MessageType
  | tool : MessageType
deriving DecidableEq, Repr

/-- The string value of a `MessageType` member. -/
def MessageType.value : MessageType → String
  | .human => "human"
  | .ai => "ai"
  | .tool => "tool"

/-- `ToolCall` from `app/models/message.py`. `args` is `Dict[str, Any]`
(default empty), `type` defaults to `"tool_call"`. -/
structure ToolCall where
  name : String
  args : List (String × JValue) := []
  id : String
  type : String := "tool_call"
deriving DecidableEq, Repr

/-- `Message` from `app/models/message.py`. The Python field `example`
is named `exampleFlag` here because `example` is a Lean keyword. -/
structure Message where
  content : String := ""
  type : MessageType
  name : Option String := none
  id : String
  exampleFlag : Bool := false
  tool_calls : List ToolCall := []
  invalid_tool_calls : List (List (String × JValue)) := []
  usage_metadata : Option (List (String × JValue)) := none
  tool_call_id : Option String := none
  artifact : Option (List (String × JValue)) := none
  status : Option String := none
deriving DecidableEq, Repr

/-- `MessageDataset` from `app/models/message.py`. -/
structure MessageDataset where
  messages : List Message
  metadata : Option (List (String × JValue)) := none
deriving DecidableEq, Repr

/-- `MessageDataset.get_unique_agents`: the set of names of `ai`-typed
messages with a truthy (non-`None`, non-empty) name. Python builds a
`set`; it is modelled as the deduplicated list of such names. -/
def MessageDataset.get_unique_agents (ds : MessageDataset) : List String :=
  (ds.messages.filterMap (fun m =>
    match m.name with
    | some s => if s ≠ "" ∧ m.type = MessageType.ai then some s else none
    | none => none)).dedup

/-- `MessageDataset.get_unique_tools`: the set of tool names appearing in
tool calls, modelled as a deduplicated list. -/
def MessageDataset.get_unique_tools (ds : MessageDataset) : List String :=
  ((ds.messages.map (fun m => m.tool_calls.map ToolCall.name)).flatten).dedup

/-- Serialize an optional JSON-object field (`None` becomes null). -/
def dumpOptObj : Option (List (String × JValue)) → JValue
  | some fs => .obj fs
  | none => .null

/-- Serialize an optional string field (`None` becomes null). -/
def dumpOptStr : Option String → JValue
  | some s => .str s
  | none => .null

/-- `model_dump` of an `AgentTool` (Pydantic serialization: all fields,
`None` becomes JSON null). -/
def AgentTool.dump (t : AgentTool) : JValue :=
  .obj [("name", .str t.name), ("description", .str t.description),
        ("parameters", dumpOptObj t.parameters)]

/-- `model_dump` of an `Agent`, fields in declaration order. -/
def Agent.dump (a : Agent) : JValue :=
  .obj [("agent_id", .str a.agent_id), ("agent_name", .str a.agent_name),
        ("version", .str a.version), ("system_prompt", .str a.system_prompt),
        ("tools", .arr (a.tools.map AgentTool.dump)),
        ("metadata", dumpOptObj a.metadata)]

/-- `model_dump` of an `AgentConfig`. -/
def AgentConfig.dump (cfg : AgentConfig) : JValue :=
  .obj [("agents", .arr (cfg.agents.map Agent.dump)),
        ("version", dumpOptStr cfg.version),
        ("metadata", dumpOptObj cfg.metadata)]

/-- `model_dump` of a `ToolCall`. -/
def ToolCall.dump (tc : ToolCall) : JValue :=
  .obj [("name", .str tc.name), ("args", .obj tc.args), ("id", .str tc.id),
        ("type", .str tc.type)]

/-- `model_dump` of a `Message`, fields in declaration order. -/
def Message.dump (m : Message) : JValue :=
  .obj [("content", .str m.content), ("type", .str m.type.value),
        ("name", dumpOptStr m.name), ("id", .str m.id),
        ("example", .bool m.exampleFlag),
        ("tool_calls", .arr (m.tool_calls.map ToolCall.dump)),
        ("invalid_tool_calls", .arr (m.invalid_tool_calls.map JValue.obj)),
        ("usage_metadata", dumpOptObj m.usage_metadata),
        ("tool_call_id", dumpOptStr m.tool_call_id),
        ("artifact", dumpOptObj m.artifact),
        ("status", dumpOptStr m.status)]

/-- `model_dump` of a `MessageDataset`. -/
def MessageDataset.dump (ds : MessageDataset) : JValue :=
  .obj [("messages", .arr (ds.messages.map Message.dump)),
        ("metadata", dumpOptObj ds.metadata)]

/-- Map a fallible function over a list, failing on the first error
(Pydantic validates list elements in order, stopping at the first failure). -/
def mapE (f : α → Except String β) : List α → Except String (List β)
  | [] => .ok []
  | a :: as => do
      let b ← f a
      let bs ← mapE f as
      .ok (b :: bs)

/-- Required string field of a Pydantic model (no coercion from other
JSON types in the modelled fragment). -/
def reqStr (fs : List (String × JValue)) (key : String) : Except String String :=
  match jlookup fs key with
  | some (.str s) => .ok s
  | some _ => .error (key ++ " must be a string")
  | none => .error ("Field required: " ++ key)

/-- `Optional[str]` field: missing or null gives `None`. -/
def optStr (fs : List (String × JValue)) (key : String) : Except String (Option String) :=
  match jlookup fs key with
  | none => .ok none
  | some .null => .ok none
  | some (.str s) => .ok (some s)
  | some _ => .error (key ++ " must be a string or null")

/-- `Optional[dict]` field: missing or null gives `None`. -/
def optObj (fs : List (String × JValue)) (key : String) :
    Except String (Option (List (String × JValue))) :=
  match jlookup fs key with
  | none => .ok none
  | some .null => .ok none
  | some (.obj o) => .ok (some o)
  | some _ => .error (key ++ " must be an object or null")

/-- Pydantic validation of `AgentTool` from a JSON value. -/
def AgentTool.fromJ (j : JValue) : Except String AgentTool :=
  match j with
  | .obj fs => do
      let name ← reqStr fs "name"
      let description ← reqStr fs "description"
      let parameters ← optObj fs "parameters"
      .ok { name := name, description := description, parameters := parameters }
  | _ => .error "tool must be an object"

/-- The `version` field of `Agent` (string, default `"1.0"`). -/
def agentVersion (fs : List (String × JValue)) : Except String String :=
  match jlookup fs "version" with
  | none => .ok "1.0"
  | some (.str s) => .ok s
  | some _ => .error "version must be a string"

/-- The `tools` field of `Agent` (`List[AgentTool]`, default empty). -/
def agentTools (fs : List (String × JValue)) : Except String (List AgentTool) :=
  match jlookup fs "tools" with
  | none => .ok []
  | some (.arr xs) => mapE AgentTool.fromJ xs
  | some _ => .error "tools must be a list"

/-- Pydantic validation of `Agent` from a JSON value. -/
def Agent.fromJ (j : JValue) : Except String Agent :=
  match j with
  | .obj fs => do
      let agent_id ← reqStr fs "agent_id"
      let agent_name ← reqStr fs "agent_name"
      let version ← agentVersion fs
      let system_prompt ← reqStr fs "system_prompt"
      let tools ← agentTools fs
      let metadata ← optObj fs "metadata"
      .ok { agent_id := agent_id, agent_name := agent_name, version := version,
            system_prompt := system_prompt, tools := tools, metadata := metadata }
  | _ => .error "agent must be an object"

/-- The `args` field of `ToolCall` (`Dict[str, Any]`, default empty). -/
def toolCallArgs (fs : List (String × JValue)) :
    Except String (List (String × JValue)) :=
  match jlookup fs "args" with
  | none => .ok []
  | some (.obj o) => .ok o
  | some _ => .error "args must be an object"

/-- The `type` field of `ToolCall` (string, default `"tool_call"`). -/
def toolCallType (fs : List (String × JValue)) : Except String String :=
  match jlookup fs "type" with
  | none => .ok "tool_call"
  | some (.str s) => .ok s
  | some _ => .error "type must be a string"

/-- Pydantic validation of `ToolCall` from a JSON value. -/
def ToolCall.fromJ (j : JValue) : Except String ToolCall :=
  match j with
  | .obj fs => do
      let name ← reqStr fs "name"
      let args ← toolCallArgs fs
      let id ← reqStr fs "id"
      let type ← toolCallType fs
      .ok { name := name, args := args, id := id, type := type }
  | _ => .error "tool call must be an object"

/-- The `content` field of `Message` (string, default `""`). -/
def msgContent (fs : List (String × JValue)) : Except String String :=
  match jlookup fs "content" with
  | none => .ok ""
  | some (.str s) => .ok s
  | some _ => .error "content must be a string"

/-- The `type` field of `Message`: accepts exactly the values of the
`MessageType` enumeration — `"human"`, `"ai"`, `"tool"` — so `"system"`
is rejected here even though the normalizer's own `valid_types` list
allows it. -/
def msgType (fs : List (String × JValue)) : Except String MessageType :=
  match jlookup fs "type" with
  | some (.str "human") => .ok MessageType.human
  | some (.str "ai") => .ok MessageType.ai
  | some (.str "tool") => .ok MessageType.tool
  | _ => .error "type is not a valid MessageType"

/-- The `example` field of `Message` (boolean, default false). -/
def msgExampleFlag (fs : List (String × JValue)) : Except String Bool :=
  match jlookup fs "example" with
  | none => .ok false
  | some (.bool b) => .ok b
  | some _ => .error "example must be a boolean"

/-- The `tool_calls` field of `Message` (`List[ToolCall]`, default empty). -/
def msgToolCalls (fs : List (String × JValue)) : Except String (List ToolCall) :=
  match jlookup fs "tool_calls" with
  | none => .ok []
  | some (.arr xs) => mapE ToolCall.fromJ xs
  | some _ => .error "tool_calls must be a list"

/-- The `invalid_tool_calls` field of `Message` (`List[dict]`, default
empty). -/
def msgInvalidToolCalls (fs : List (String × JValue)) :
    Except String (List (List (String × JValue))) :=
  match jlookup fs "invalid_tool_calls" with
  | none => .ok []
  | some (.arr xs) => mapE (fun x => match x with
      | JValue.obj o => Except.ok o
      | _ => Except.error "invalid_tool_calls entries must be objects") xs
  | some _ => .error "invalid_tool_calls must be a list"

/-- Pydantic validation of `Message` from a JSON value. -/
def Message.fromJ (j : JValue) : Except String Message :=
  match j with
  | .obj fs => do
      let content ← msgContent fs
      let type ← msgType fs
      let name ← optStr fs "name"
      let id ← reqStr fs "id"
      let exampleFlag ← msgExampleFlag fs
      let tool_calls ← msgToolCalls fs
      let invalid_tool_calls ← msgInvalidToolCalls fs
      let usage_metadata ← optObj fs "usage_metadata"
      let tool_call_id ← optStr fs "tool_call_id"
      let artifact ← optObj fs "artifact"
      let status ← optStr fs "status"
      .ok { content := content, type := type, name := name, id := id,
            exampleFlag := exampleFlag, tool_calls := tool_calls,
            invalid_tool_calls := invalid_tool_calls,
            usage_metadata := usage_metadata, tool_call_id := tool_call_id,
            artifact := artifact, status := status }
  | _ => .error "message must be an object"

/-- Python iteration over a value (`for x in v`): lists yield elements,
dicts yield their keys, strings yield one-character strings, anything
else raises `TypeError`. -/
def iterElems : JValue → Except String (List JValue)
  | .arr xs => .ok xs
  | .obj fs => .ok (fs.map (fun kv => .str kv.1))
  | .str s => .ok (s.data.map (fun c => .str ⟨[c]⟩))
  | _ => .error "object is not iterable"

/-- `pat in s` for Python character lists (substring containment). -/
def startsWithChars : List Char → List Char → Bool
  | [], _ => true
  | _ :: _, [] => false
  | p :: ps, c :: cs => p = c && startsWithChars ps cs

/-- Python `pat in s` substring test on character lists. -/
def hasSub (pat : List Char) : List Char → Bool
  | [] => startsWithChars pat []
  | c :: rest => startsWithChars pat (c :: rest) || hasSub pat rest

/-- Python `key in v`: key membership for dicts, substring for strings,
element membership for lists; `TypeError` otherwise. -/
def pyContains (v : JValue) (key : String) : Except String Bool :=
  match v with
  | .obj fs => .ok (hasKey fs key)
  | .str s => .ok (hasSub key.data s.data)
  | .arr xs => .ok (decide ((JValue.str key) ∈ xs))
  | _ => .error "argument is not a container"

/-- Python `v[key]` with a string key: dict lookup (KeyError when
missing), `TypeError` on any other type. -/
def pyIndex (v : JValue) (key : String) : Except String JValue :=
  match v with
  | .obj fs =>
      match jlookup fs key with
      | some w => .ok w
      | none => .error ("KeyError: " ++ key)
  | _ => .error "value is not subscriptable by a string"

/-! ### Agent config normalization (`ValidationUtils.validate_agents_config`) -/

/-- `_normalize_agents_config_format` from `app/utils/validation.py`. -/
def normalizeAgentsConfigFormat (data : JValue) : Except String JValue :=
  match data with
  | .arr xs => .ok (.obj [("agents", .arr xs)])
  | .obj fs =>
      if hasKey fs "agents" then .ok (.obj fs)
      else if hasKey fs "agent_id" then .ok (.obj [("agents", .arr [.obj fs])])
      else if hasKey fs "id" || hasKey fs "name" || hasKey fs "agent_name" then
        .ok (.obj [("agents", .arr [.obj fs])])
      else
        let agentLike := fs.filterMap (fun kv =>
          match kv.2 with
          | JValue.obj vfs =>
              if hasKey vfs "agent_id" || hasKey vfs "id" then some kv.2 else none
          | _ => none)
        if agentLike.isEmpty then .error "Could not infer agents configuration format"
        else .ok (.obj [("agents", .arr agentLike)])
  | _ => .error "Invalid agents configuration format"

/-- First source key present in the agent object (`break` on the first
present key, regardless of its value). -/
def firstPresent (fs : List (String × JValue)) : List String → Option JValue
  | [] => none
  | k :: rest =>
      match jlookup fs k with
      | some v => some v
      | none => firstPresent fs rest

/-- `_normalize_agent_fields`: fallback field mapping for one agent.
A present key whose value is `None` counts as missing (`value is not
None` in the source). The `agent_name` fallback reads `agent_id` back
out of the partially built result, as the source does. -/
def normalizeAgentFields (fs : List (String × JValue)) (index : Nat) :
    Except String (List (String × JValue)) := do
  let idv ← match firstPresent fs ["agent_id", "id"] with
    | some .null => .error ("Agent " ++ natDecimal index ++ " missing required field: agent_id")
    | none => .error ("Agent " ++ natDecimal index ++ " missing required field: agent_id")
    | some v => pure v
  let partial0 : List (String × JValue) := [("agent_id", idv)]
  let namev := match firstPresent fs ["agent_name", "name"] with
    | some .null => (jlookup partial0 "agent_id").getD (.str ("agent_" ++ natDecimal index))
    | none => (jlookup partial0 "agent_id").getD (.str ("agent_" ++ natDecimal index))
    | some v => v
  let spv ← match firstPresent fs ["system_prompt", "prompt", "system"] with
    | some .null => .error ("Agent " ++ natDecimal index ++ " missing required field: system_prompt")
    | none => .error ("Agent " ++ natDecimal index ++ " missing required field: system_prompt")
    | some v => pure v
  let toolsv := (jlookup fs "tools").getD (.arr [])
  .ok [("agent_id", idv), ("agent_name", namev), ("system_prompt", spv), ("tools", toolsv)]

/-- The `for i, agent in enumerate(agents)` loop of
`validate_agents_config`: each element must be a dict, then its fields
are normalized. -/
def normalizeAgentsLoop : Nat → List JValue → Except String (List JValue)
  | _, [] => .ok []
  | index, a :: rest =>
      match a with
      | .obj fs => do
          let na ← normalizeAgentFields fs index
          let tail ← normalizeAgentsLoop (index + 1) rest
          .ok (.obj na :: tail)
      | _ => .error ("Agent " ++ natDecimal index ++ " is not a valid object")

/-- `ValidationUtils.validate_agents_config`: format normalization,
per-agent field normalization, then Pydantic validation of
`{"agents": normalized_agents}`. Note the final `AgentConfig` model does
not constrain `agents` to be non-empty. -/
def validate_agents_config (data : JValue) : Except String AgentConfig := do
  let configData ← normalizeAgentsConfigFormat data
  let agentsVal := match configData with
    | .obj fs => (jlookup fs "agents").getD (.arr [])
    | _ => .arr []
  let agentElems ← iterElems agentsVal
  let normalized ← normalizeAgentsLoop 0 agentElems
  let agents ← mapE Agent.fromJ normalized
  .ok { agents := agents }

/-! ### Message dataset normalization (`ValidationUtils.validate_messages_dataset`) -/

/-- The conversation-flattening loop of `_normalize_messages_format`:
`all_messages.extend(conv["messages"])` for every dict conversation
carrying a `messages` key. -/
def flattenConvs : List JValue → Except String (List JValue)
  | [] => .ok []
  | c :: rest =>
      match c with
      | .obj cfs =>
          if hasKey cfs "messages" then do
            let ms ← iterElems ((jlookup cfs "messages").getD .null)
            let tail ← flattenConvs rest
            .ok (ms ++ tail)
          else flattenConvs rest
      | _ => flattenConvs rest

/-- `_normalize_messages_format` from `app/utils/validation.py`. -/
def normalizeMessagesFormat (data : JValue) : Except String JValue :=
  match data with
  | .arr xs => .ok (.obj [("messages", .arr xs)])
  | .obj fs =>
      if hasKey fs "messages" then .ok (.obj fs)
      else if hasKey fs "conversations" then do
        let convs ← iterElems ((jlookup fs "conversations").getD (.arr []))
        let all ← flattenConvs convs
        .ok (.obj [("messages", .arr all)])
      else .error "Messages dataset missing messages or conversations key"
  | _ => .error "Messages dataset must be a JSON object or array"

/-- The role→type mapping of `_normalize_message_fields`
(`role_mapping.get(role, "ai")`). -/
def roleMapping (role : String) : String :=
  if role = "user" then "human"
  else if role = "assistant" then "ai"
  else if role = "ai" then "ai"
  else if role = "system" then "system"
  else if role = "tool" then "tool"
  else if role = "function" then "tool"
  else "ai"

/-- One iteration of `_normalize_tool_calls`: returns `none` when the
source does `continue` (non-dict entry, or no tool name found).
`jsonLoads` stands for the Python standard-library `json.loads` used on
a string `function.arguments` payload (`none` models `JSONDecodeError`). -/
def normalizeToolCallEntry (jsonLoads : String → Option JValue) (tc : JValue) (n : Nat) :
    Except String (Option (List (String × JValue))) :=
  match tc with
  | .obj tfs => do
      let nameOpt ← match jlookup tfs "name" with
        | some v => pure (some v)
        | none =>
            match jlookup tfs "function" with
            | some fv => do
                let has ← pyContains fv "name"
                if has then do
                  let v ← pyIndex fv "name"
                  pure (some v)
                else pure (none : Option JValue)
            | none => pure (none : Option JValue)
      match nameOpt with
      | none => .ok none
      | some namev => do
          let argsv ←
            if hasKey tfs "args" then pure ((jlookup tfs "args").getD .null)
            else if hasKey tfs "arguments" then pure ((jlookup tfs "arguments").getD .null)
            else match jlookup tfs "function" with
              | some fv => do
                  let has ← pyContains fv "arguments"
                  if has then do
                    let av ← pyIndex fv "arguments"
                    match av with
                    | .str s =>
                        match jsonLoads s with
                        | some parsed => pure parsed
                        | none => pure (.obj [("raw_arguments", .str s)])
                    | _ => pure av
                  else pure (JValue.obj [])
              | none => pure (JValue.obj [])
          let idv ←
            if hasKey tfs "id" then pure ((jlookup tfs "id").getD .null)
            else match jlookup tfs "function" with
              | some fv => do
                  let has ← pyContains fv "id"
                  if has then pyIndex fv "id"
                  else pure (JValue.str ("call_" ++ natDecimal n))
              | none => pure (JValue.str ("call_" ++ natDecimal n))
          .ok (some [("name", namev), ("args", argsv), ("id", idv)])
  | _ => .ok none

/-- The `_normalize_tool_calls` loop; `n` is the number of tool calls
already normalized (used for synthesized `call_{n}` ids). -/
def normalizeToolCallsLoop (jsonLoads : String → Option JValue) :
    List JValue → Nat → Except String (List (List (String × JValue)))
  | [], _ => .ok []
  | tc :: rest, n => do
      let entry ← normalizeToolCallEntry jsonLoads tc n
      match entry with
      | some e => do
          let tail ← normalizeToolCallsLoop jsonLoads rest (n + 1)
          .ok (e :: tail)
      | none => normalizeToolCallsLoop jsonLoads rest n

/-- `_normalize_tool_calls` from `app/utils/validation.py`. -/
def normalizeToolCalls (jsonLoads : String → Option JValue) (j : JValue) :
    Except String (List JValue) := do
  let elems ← iterElems j
  let entries ← normalizeToolCallsLoop jsonLoads elems 0
  .ok (entries.map JValue.obj)

/-- The type derivation of `_normalize_message_fields`: the `type` value
verbatim when present, else from `role` via the mapping (Python
`dict.get` treats any hashable non-string role as unmapped, defaulting
to `"ai"`; unhashable roles raise). -/
def messageTypeValue (fs : List (String × JValue)) (index : Nat) : Except String JValue :=
  if hasKey fs "type" then .ok ((jlookup fs "type").getD .null)
  else match jlookup fs "role" with
    | some rv =>
        match rv with
        | .str role => .ok (JValue.str (roleMapping role))
        | .null => .ok (JValue.str "ai")
        | .bool _ => .ok (JValue.str "ai")
        | .num _ => .ok (JValue.str "ai")
        | .arr _ => .error "unhashable type in role"
        | .obj _ => .error "unhashable type in role"
    | none => .error ("Message " ++ natDecimal index ++ " missing required field: type or role")

/-- The `valid_types` check of `_normalize_message_fields`: the derived
type must be one of the strings human/ai/tool/system (a non-string type
value is never in the list and fails). -/
def checkValidType (typev : JValue) (index : Nat) : Except String Unit :=
  match typev with
  | JValue.str t =>
      if t = "human" ∨ t = "ai" ∨ t = "tool" ∨ t = "system" then .ok ()
      else .error ("Message " ++ natDecimal index ++ " has invalid type")
  | _ => .error ("Message " ++ natDecimal index ++ " has invalid type")

/-- The `tool_calls` part of `_normalize_message_fields`: the normalized
tool calls when the key is present, nothing otherwise. -/
def messageToolCallsPart (jsonLoads : String → Option JValue)
    (fs : List (String × JValue)) : Except String (List (String × JValue)) :=
  if hasKey fs "tool_calls" then do
    let tcs ← normalizeToolCalls jsonLoads ((jlookup fs "tool_calls").getD .null)
    .ok [("tool_calls", JValue.arr tcs)]
  else .ok []

/-- `_normalize_message_fields` from `app/utils/validation.py`, on the
fields of one message dict. -/
def normalizeMessageFields (jsonLoads : String → Option JValue)
    (fs : List (String × JValue)) (index : Nat) :
    Except String (List (String × JValue)) := do
  let idv := (jlookup fs "id").getD (.str ("msg_" ++ natDecimal index))
  let contentv := (jlookup fs "content").getD (.str "")
  let typev ← messageTypeValue fs index
  let _ ← checkValidType typev index
  let base : List (String × JValue) := [("id", idv), ("content", contentv), ("type", typev)]
  let base := base ++ (if hasKey fs "name" then [("name", (jlookup fs "name").getD .null)] else [])
  let base := base ++ (if hasKey fs "example" then [("example", (jlookup fs "example").getD .null)] else [])
  let base := base ++ (if hasKey fs "tool_call_id" then [("tool_call_id", (jlookup fs "tool_call_id").getD .null)] else [])
  let base := base ++
    (if hasKey base "name" then []
     else if typev = JValue.str "ai" ∧ hasKey fs "role" ∧ jlookup fs "role" ≠ some (.str "assistant") then
       [("name", (jlookup fs "role").getD .null)]
     else if typev = JValue.str "tool" ∧ hasKey fs "tool_name" then
       [("name", (jlookup fs "tool_name").getD .null)]
     else [])
  let tcPart ← messageToolCallsPart jsonLoads fs
  let base := base ++ tcPart
  let base := base ++ (if hasKey base "example" then [] else [("example", .bool false)])
  let base := base ++ (if hasKey base "tool_calls" then [] else [("tool_calls", .arr [])])
  .ok base

/-- The `for i, message in enumerate(messages)` loop of
`validate_messages_dataset`. -/
def normalizeMessagesLoop (jsonLoads : String → Option JValue) :
    Nat → List JValue → Except String (List JValue)
  | _, [] => .ok []
  | index, m :: rest =>
      match m with
      | .obj fs => do
          let nm ← normalizeMessageFields jsonLoads fs index
          let tail ← normalizeMessagesLoop jsonLoads (index + 1) rest
          .ok (.obj nm :: tail)
      | _ => .error ("Message " ++ natDecimal index ++ " is not a valid object")

/-- `ValidationUtils.validate_messages_dataset`: format normalization,
the explicit list/non-empty checks, per-message normalization, then
Pydantic validation of `{"messages": normalized_messages}`. -/
def validate_messages_dataset (jsonLoads : String → Option JValue) (data : JValue) :
    Except String MessageDataset := do
  let messagesData ← normalizeMessagesFormat data
  let messagesVal := match messagesData with
    | .obj fs => (jlookup fs "messages").getD (.arr [])
    | _ => .arr []
  let msgs ← match messagesVal with
    | JValue.arr xs => pure xs
    | _ => .error "Messages must be a list"
  if msgs.isEmpty then .error "Messages dataset is empty"
  else do
    let normalized ← normalizeMessagesLoop jsonLoads 0 msgs
    let messages ← mapE Message.fromJ normalized
    .ok { messages := messages }

/-! ### Session state (`app/models/session.py`) -/

/-- `SessionStatus` from `app/models/session.py`. -/
inductive SessionStatus where
  | created : SessionStatus
  | uploaded : SessionStatus
  | analyzing : SessionStatus
  | analyzed : SessionStatus
  | optimizing : SessionStatus
  | completed : SessionStatus
  | error : SessionStatus
deriving DecidableEq, Repr

/-- `Session` from `app/models/session.py`. Timestamps are modelled as
abstract clock readings (naturals); analysis payloads are JSON values. -/
structure Session where
  session_id : String
  status : SessionStatus := .created
  created_at : Nat
  updated_at : Nat
  agents_config_filename : Option String := none
  messages_dataset_filename : Option String := none
  original_filenames : List (String × String) := []
  evaluation_report : Option JValue := none
  optimization_result : Option JValue := none
  error_message : Option String := none
  error_details : Option (List (String × JValue)) := none
  metadata : Option (List (String × JValue)) := none
deriving DecidableEq, Repr

/-- `Session.update_status`: sets the requested status, stamps
`updated_at` with the current clock (`datetime.utcnow()`, modelled by
the explicit `now` argument), and on a truthy (non-`None`, non-empty)
error message stores it and forces the status to `error` when the
requested status was not already `error`. -/
def Session.update_status (s : Session) (status : SessionStatus)
    (error_message : Option String) (now : Nat) : Session :=
  let s1 := { s with status := status, updated_at := now }
  match error_message with
  | some m =>
      if m = "" then s1
      else
        let s2 := { s1 with error_message := some m }
        if status ≠ SessionStatus.error then { s2 with status := SessionStatus.error } else s2
  | none => s1

/-! ### Cross-validation (`ValidationUtils.validate_session_files`) -/

/-- The warning strings produced by cross-validation are Python
f-strings; they are modelled structurally, each constructor carrying the
payload the corresponding f-string renders. -/
inductive CrossWarning where
  | agentsMissingInConfig (names : List String) : CrossWarning
  | agentsMissingInMessages (names : List String) : CrossWarning
  | toolsMissingInConfig (names : List String) : CrossWarning
  | orphanToolResponse (messageId toolCallId : String) : CrossWarning
deriving DecidableEq, Repr

/-- The recommendation strings of cross-validation, modelled structurally. -/
inductive CrossRecommendation where
  | addMissingAgents : CrossRecommendation
  | addMissingTools : CrossRecommendation
deriving DecidableEq, Repr

/-- The report dict built by `validate_session_files`. -/
structure CrossValidationReport where
  agents_count : Nat
  messages_count : Nat
  unique_agents_in_messages : Nat
  unique_tools_in_messages : Nat
  warnings : List CrossWarning
  recommendations : List CrossRecommendation
  errors : List String
deriving DecidableEq, Repr

/-- Set difference `message_agents - config_agents` as used by
`_check_missing_agents` (Python sets, modelled as deduplicated lists). -/
def missingAgentsInConfig (configAgents messageAgents : List String) : List String :=
  messageAgents.filter (fun n => n ∉ configAgents)

/-- `_check_missing_agents`: appends a warning (and, for agents missing
from the config, a recommendation) for each non-empty difference. -/
def checkMissingAgents (configAgents messageAgents : List String) :
    List CrossWarning × List CrossRecommendation :=
  let missingInConfig := missingAgentsInConfig configAgents messageAgents
  let missingInMessages := configAgents.filter (fun n => n ∉ messageAgents)
  let w1 : List CrossWarning :=
    if missingInConfig.isEmpty then [] else [.agentsMissingInConfig missingInConfig]
  let r1 : List CrossRecommendation :=
    if missingInConfig.isEmpty then [] else [.addMissingAgents]
  let w2 : List CrossWarning :=
    if missingInMessages.isEmpty then [] else [.agentsMissingInMessages missingInMessages]
  (w1 ++ w2, r1)

/-- `_check_missing_tools`. -/
def checkMissingTools (configTools messageTools : List String) :
    List CrossWarning × List CrossRecommendation :=
  let undefinedTools := messageTools.filter (fun n => n ∉ configTools)
  if undefinedTools.isEmpty then ([], [])
  else ([.toolsMissingInConfig undefinedTools], [.addMissingTools])

/-- One position of `_check_conversation_flow`: when the `i`-th message
is `tool`-typed with a truthy `tool_call_id` and no `ai` message within
the five preceding positions carries a matching tool-call id, report the
orphaned message id and tool-call id. -/
def orphanAt (messages : List Message) (i : Nat) : Option (String × String) :=
  match messages[i]? with
  | some curr =>
      match curr.type, curr.tool_call_id with
      | MessageType.tool, some tcid =>
          if tcid = "" then none
          else
            let found := (List.range i).any (fun j =>
              decide (i ≤ j + 5) &&
              match messages[j]? with
              | some prev =>
                  decide (prev.type = MessageType.ai) &&
                  prev.tool_calls.any (fun tc => tc.id = tcid)
              | none => false)
            if found then none else some (curr.id, tcid)
      | _, _ => none
  | none => none

/-- `_check_conversation_flow`. -/
def checkConversationFlow (ds : MessageDataset) : List CrossWarning :=
  (List.range ds.messages.length).filterMap (fun i =>
    (orphanAt ds.messages i).map (fun p => .orphanToolResponse p.1 p.2))

/-- `ValidationUtils.validate_session_files`: builds the consistency
report; raises `DataConsistencyError` when the (reserved, currently
never populated) errors list is non-empty. -/
def validate_session_files (cfg : AgentConfig) (ds : MessageDataset) :
    Except String CrossValidationReport :=
  let configAgentNames := cfg.get_agent_names
  let messageAgentNames := ds.get_unique_agents
  let messageTools := ds.get_unique_tools
  let configTools := (cfg.agents.map (fun a => a.tools.map AgentTool.name)).flatten.dedup
  let wAgents := (checkMissingAgents configAgentNames messageAgentNames).1
  let rAgents := (checkMissingAgents configAgentNames messageAgentNames).2
  let wTools := (checkMissingTools configTools messageTools).1
  let rTools := (checkMissingTools configTools messageTools).2
  let wFlow := checkConversationFlow ds
  let report : CrossValidationReport :=
    { agents_count := cfg.agents.length
      messages_count := ds.messages.length
      unique_agents_in_messages := ds.get_unique_agents.length
      unique_tools_in_messages := ds.get_unique_tools.length
      warnings := wAgents ++ wTools ++ wFlow
      recommendations := rAgents ++ rTools
      errors := [] }
  if report.errors.isEmpty then .ok report
  else .error "Critical data consistency errors"

/-! ### Evaluation enhancement (`ContextEvaluator._enhance_evaluation_result`) -/

/-- The clamp `max(0.0, min(10.0, x))` applied to scores. -/
def clampScore (q : ℚ) : ℚ := max 0 (min 10 q)

/-- Python `float(v)` on a JSON value. Modelled for the numeric fragment
the claims quantify over: numbers convert to themselves and booleans to
0/1 (Python bools are integers); every other shape is an error. The
parsing of numeric strings that Python `float` would additionally accept
is outside the modelled fragment. -/
def pyFloat : JValue → Except String ℚ
  | .num q => .ok q
  | .bool b => .ok (if b then 1 else 0)
  | _ => .error "could not convert value to float"

/-- Python truthiness of a JSON value. -/
def truthy : JValue → Bool
  | .null => false
  | .bool b => b
  | .num q => decide (q ≠ 0)
  | .str s => decide (s ≠ "")
  | .arr xs => !xs.isEmpty
  | .obj fs => !fs.isEmpty

/-- `result[field] = default` for every required field not present
(`_enhance_evaluation_result` / `_enhance_optimization_result`). -/
def applyDefaults (fs : List (String × JValue)) :
    List (String × JValue) → List (String × JValue)
  | [] => fs
  | (k, v) :: rest => applyDefaults (if hasKey fs k then fs else setKey fs k v) rest

/-- The required evaluation fields and their defaults. -/
def requiredEvalDefaults : List (String × JValue) :=
  [("overall_score", .num 5), ("dimensions", .arr []), ("priority_issues", .arr []),
   ("summary", .str "Analysis completed"), ("recommendations", .arr [])]

/-- The metadata block attached by `_enhance_evaluation_result` (the
timestamp placeholder is overwritten by the caller). -/
def evalMetadata (cfg : AgentConfig) (ds : MessageDataset) : JValue :=
  .obj [("analysis_timestamp", .str "2024-01-01T00:00:00Z"),
        ("agent_count", .num cfg.agents.length),
        ("message_count", .num ds.messages.length),
        ("unique_tools", .num ds.get_unique_tools.length),
        ("agent_names", .arr (cfg.get_agent_names.map JValue.str)),
        ("tool_names", .arr (ds.get_unique_tools.map JValue.str))]

/-- One iteration of the dimension-clamping loop: a dict with a `score`
key gets its score clamped; a dict without one is untouched; Python's
`"score" in dimension` on non-dict shapes (substring test for strings,
element membership for lists) either skips the element or raises. -/
def enhanceDimElem (d : JValue) : Except String JValue :=
  match d with
  | .obj dfs =>
      if hasKey dfs "score" then do
        let q ← pyFloat ((jlookup dfs "score").getD .null)
        .ok (.obj (setKey dfs "score" (.num (clampScore q))))
      else .ok d
  | .str s => if hasSub "score".data s.data then .error "str does not support item assignment" else .ok d
  | .arr xs => if decide ((JValue.str "score") ∈ xs) then .error "list indices must be integers" else .ok d
  | _ => .error "argument is not a container"

/-- `ContextEvaluator._enhance_evaluation_result`: injects required
fields, attaches metadata, clamps the overall score and every dimension
score. A non-dict raw result raises (`TypeError`) in the source at the
first item assignment or membership test, so it is an error here;
iterating dimensions held in a string or dict mutates only temporaries,
leaving the field unchanged. -/
def enhanceEvaluationResult (raw : JValue) (cfg : AgentConfig) (ds : MessageDataset) :
    Except String JValue :=
  match raw with
  | .obj fs0 => do
      let fs1 := applyDefaults fs0 requiredEvalDefaults
      let fs2 := setKey fs1 "metadata" (evalMetadata cfg ds)
      let score ← pyFloat ((jlookup fs2 "overall_score").getD .null)
      let fs3 := setKey fs2 "overall_score" (.num (clampScore score))
      let fs4 ← match (jlookup fs3 "dimensions").getD .null with
        | JValue.arr xs => do
            let xs' ← mapE enhanceDimElem xs
            pure (setKey fs3 "dimensions" (.arr xs'))
        | JValue.str s => do
            let _ ← mapE enhanceDimElem (s.data.map (fun c => .str ⟨[c]⟩))
            pure fs3
        | JValue.obj dfs => do
            let _ ← mapE enhanceDimElem (dfs.map (fun kv => .str kv.1))
            pure fs3
        | _ => .error "dimensions is not iterable"
      .ok (.obj fs4)
  | _ => .error "evaluation result is not an object"

/-! ### Optimization enhancement (`ContextOptimizer`) -/

/-- The list/dict shape coercion of `optimize_context` (lines 64-71):
a list is unwrapped to its first element when that element is a dict,
any other list is an error, a dict passes through, and any other shape
is an error. The evaluation path (`evaluate_context`) has no such
coercion. -/
def coerceOptimizationShape : JValue → Except String JValue
  | .arr (first :: _) =>
      match first with
      | .obj fs => .ok (.obj fs)
      | _ => .error "Unexpected list format in optimization result"
  | .arr [] => .error "Unexpected list format in optimization result"
  | .obj fs => .ok (.obj fs)
  | _ => .error "Expected dict or list"

/-- The required optimization fields and their defaults. -/
def requiredOptDefaults : List (String × JValue) :=
  [("optimized_agents", .arr []), ("tool_format_recommendations", .arr []),
   ("implementation_guide", .str "Apply the optimized configurations to your MAS system."),
   ("expected_improvements", .arr []), ("compatibility_notes", .arr [])]

/-- The `agent_id` a validated entry carries (always a non-empty string
by construction of `_validate_optimized_agents`). -/
def entryAgentId : JValue → Option String
  | .obj efs =>
      match jlookup efs "agent_id" with
      | some (.str s) => some s
      | _ => none
  | _ => none

/-- One iteration of the `_validate_optimized_agents` filter/repair
loop; `none` is the source's `continue`. The entry survives exactly when
its `agent_id` is a truthy string belonging to the original agent-id
set; a truthy unhashable `agent_id` (non-empty list/dict) raises on the
set-membership test, and every other value is falsy or not a member of
a set of strings. Surviving entries have their missing sub-fields filled
from the matching original agent (`dict.get` with a default, so a
present-but-null value is kept as null). -/
def validateOptimizedAgentEntry (cfg : AgentConfig) (e : JValue) :
    Except String (Option JValue) :=
  match e with
  | .obj efs =>
      match jlookup efs "agent_id" with
      | none => .ok none
      | some .null => .ok none
      | some (.bool _) => .ok none
      | some (.num _) => .ok none
      | some (.arr xs) => if xs.isEmpty then .ok none else .error "unhashable type: list"
      | some (.obj ofs) => if ofs.isEmpty then .ok none else .error "unhashable type: dict"
      | some (.str s) =>
          if s = "" then .ok none
          else if s ∈ cfg.get_agent_ids then
            match cfg.get_agent_by_id s with
            | some orig => .ok (some (.obj [
                ("agent_id", .str s),
                ("agent_name", (jlookup efs "agent_name").getD (.str orig.agent_name)),
                ("original_system_prompt",
                  (jlookup efs "original_system_prompt").getD (.str orig.system_prompt)),
                ("optimized_system_prompt",
                  (jlookup efs "optimized_system_prompt").getD (.str orig.system_prompt)),
                ("changes_summary",
                  (jlookup efs "changes_summary").getD (.str "No changes specified")),
                ("tools", (jlookup efs "tools").getD (.arr (orig.tools.map AgentTool.dump)))]))
            | none => .ok none
          else .ok none
  | _ => .ok none

/-- The filter/repair loop over the LLM-supplied optimized agents. -/
def validateOptimizedLoop (cfg : AgentConfig) : List JValue → Except String (List JValue)
  | [] => .ok []
  | e :: rest => do
      let v ← validateOptimizedAgentEntry cfg e
      let tail ← validateOptimizedLoop cfg rest
      match v with
      | some entry => .ok (entry :: tail)
      | none => .ok tail

/-- The synthetic fallback entry appended for an original agent absent
from the validated list. -/
def fallbackAgentEntry (a : Agent) : JValue :=
  .obj [("agent_id", .str a.agent_id), ("agent_name", .str a.agent_name),
        ("original_system_prompt", .str a.system_prompt),
        ("optimized_system_prompt", .str a.system_prompt),
        ("changes_summary", .str "No optimization applied"),
        ("tools", .arr (a.tools.map AgentTool.dump))]

/-- `ContextOptimizer._validate_optimized_agents`: filter and repair the
LLM-supplied entries, then append a fallback entry for every original
agent whose id is not among the validated entries' ids (the id set is
computed once, before the fallback loop). -/
def validateOptimizedAgents (optimized : List JValue) (cfg : AgentConfig) :
    Except String (List JValue) := do
  let validated ← validateOptimizedLoop cfg optimized
  let presentIds := validated.filterMap entryAgentId
  let fallbacks := (cfg.agents.filter (fun a => a.agent_id ∉ presentIds)).map fallbackAgentEntry
  .ok (validated ++ fallbacks)

/-- Python `len(v)` (sized containers only). -/
def pyLen : JValue → Except String Nat
  | .arr xs => .ok xs.length
  | .obj fs => .ok fs.length
  | .str s => .ok s.length
  | _ => .error "object has no len()"

/-- `dimension.get("score", 10.0) < 7.0` from `_extract_focus_areas`:
numeric scores compare numerically, booleans are the integers 0/1 (both
below 7), and any other type raises on the ordered comparison. -/
def scoreBelow7 : JValue → Except String Bool
  | .num q => .ok (decide (q < 7))
  | .bool _ => .ok true
  | _ => .error "unorderable types in score comparison"

/-- The dimensions half of `_extract_focus_areas`: collect
`dimension.get("name", "Unknown")` for every dimension scoring below 7.
A non-dict element raises (`AttributeError` on `.get`). -/
def focusFromDims : List JValue → Except String (List JValue)
  | [] => .ok []
  | d :: rest =>
      match d with
      | .obj dfs => do
          let below ← scoreBelow7 ((jlookup dfs "score").getD (.num 10))
          let tail ← focusFromDims rest
          if below then .ok (((jlookup dfs "name").getD (.str "Unknown")) :: tail)
          else .ok tail
      | _ => .error "dimension has no attribute get"

/-- The priority-issues half of `_extract_focus_areas`: append the
category of every high-priority issue when it is truthy and not already
collected. Equality with `"high"` and list membership are structural
(Python's cross-type numeric equality is outside the modelled fragment). -/
def focusFromIssues (acc : List JValue) : List JValue → Except String (List JValue)
  | [] => .ok acc
  | i :: rest =>
      match i with
      | .obj ifs =>
          if (jlookup ifs "priority").getD .null = JValue.str "high" then
            let category := (jlookup ifs "category").getD (.str "")
            if truthy category ∧ category ∉ acc then focusFromIssues (acc ++ [category]) rest
            else focusFromIssues acc rest
          else focusFromIssues acc rest
      | _ => .error "issue has no attribute get"

/-- `ContextOptimizer._extract_focus_areas`. -/
def extractFocusAreas (rfs : List (String × JValue)) : Except String (List JValue) := do
  let dims ← iterElems ((jlookup rfs "dimensions").getD (.arr []))
  let fromDims ← focusFromDims dims
  let issues ← iterElems ((jlookup rfs "priority_issues").getD (.arr []))
  focusFromIssues fromDims issues

/-- The high-priority issue count of `_generate_summary_stats`. -/
def countHighPriority : List JValue → Except String Nat
  | [] => .ok 0
  | i :: rest =>
      match i with
      | .obj ifs => do
          let n ← countHighPriority rest
          if (jlookup ifs "priority").getD .null = JValue.str "high" then .ok (n + 1) else .ok n
      | _ => .error "issue has no attribute get"

/-- `ContextOptimizer._generate_summary_stats`. -/
def generateSummaryStats (fsAfter : List (String × JValue))
    (rfs : List (String × JValue)) : Except String JValue := do
  let agentsOptimized ← pyLen ((jlookup fsAfter "optimized_agents").getD .null)
  let toolRecs ← pyLen ((jlookup fsAfter "tool_format_recommendations").getD .null)
  let issues ← iterElems ((jlookup rfs "priority_issues").getD (.arr []))
  let high ← countHighPriority issues
  let focus ← extractFocusAreas rfs
  .ok (.obj [("agents_optimized", .num agentsOptimized),
             ("tool_recommendations", .num toolRecs),
             ("expected_score_improvement", .str "8.5+"),
             ("original_score", (jlookup rfs "overall_score").getD (.num 0)),
             ("high_priority_issues_addressed", .num high),
             ("optimization_focus_areas", .arr focus)])

/-- `ContextOptimizer._enhance_optimization_result`: injects required
fields, validates/repairs `optimized_agents` against the original
config, attaches metadata and summary statistics. `rfs` is the
evaluation-report dict the optimizer received. -/
def enhanceOptimizationResult (raw : JValue) (cfg : AgentConfig)
    (rfs : List (String × JValue)) : Except String JValue :=
  match raw with
  | .obj fs0 => do
      let fs1 := applyDefaults fs0 requiredOptDefaults
      let agentElems ← iterElems ((jlookup fs1 "optimized_agents").getD .null)
      let validated ← validateOptimizedAgents agentElems cfg
      let fs2 := setKey fs1 "optimized_agents" (.arr validated)
      let toolRecsLen ← pyLen ((jlookup fs2 "tool_format_recommendations").getD .null)
      let fs3 := setKey fs2 "metadata" (.obj [
        ("optimization_timestamp", .str "2024-01-01T00:00:00Z"),
        ("original_agent_count", .num cfg.agents.length),
        ("optimized_agent_count", .num validated.length),
        ("tool_recommendations_count", .num toolRecsLen),
        ("based_on_evaluation_score", (jlookup rfs "overall_score").getD (.num 0))])
      let stats ← generateSummaryStats fs3 rfs
      let fs4 := setKey fs3 "summary_stats" stats
      .ok (.obj fs4)
  | _ => .error "optimization result is not an object"

/-! ### Support lemmas -/

instance {α : Type} [DecidableEq α] : DecidableEq (Except String α) := fun a b =>
  match a, b with
  | .ok x, .ok y => if h : x = y then .isTrue (by rw [h]) else .isFalse (by simp [h])
  | .error x, .error y => if h : x = y then .isTrue (by rw [h]) else .isFalse (by simp [h])
  | .ok _, .error _ => .isFalse (by simp)
  | .error _, .ok _ => .isFalse (by simp)

theorem except_bind_ok {α β : Type} {x : Except String α} {f : α → Except String β} {b : β}
    (h : (x >>= f) = .ok b) : ∃ a, x = .ok a ∧ f a = .ok b := by
  cases x with
  | ok a => exact ⟨a, rfl, h⟩
  | error e => simp [Bind.bind, Except.bind] at h

theorem jlookup_append (l l' : List (String × JValue)) (k : String) :
    jlookup (l ++ l') k = match jlookup l k with
      | some v => some v
      | none => jlookup l' k := by
  induction l with
  | nil => simp [jlookup]
  | cons hd tl ih =>
      obtain ⟨k₀, v₀⟩ := hd
      by_cases h : k₀ = k <;> simp [jlookup, h, ih]

theorem mapE_ok_spec {α β : Type} {f : α → Except String β} :
    ∀ {xs : List α} {ys : List β}, mapE f xs = .ok ys →
      ys.length = xs.length ∧
        ∀ (i : Nat) (x : α), xs[i]? = some x → ∃ y, ys[i]? = some y ∧ f x = .ok y := by
  intro xs
  induction xs with
  | nil =>
      intro ys h
      simp only [mapE] at h
      cases h
      exact ⟨rfl, by intro i x hx; simp at hx⟩
  | cons a as ih =>
      intro ys h
      simp only [mapE] at h
      obtain ⟨b, hb, h⟩ := except_bind_ok h
      obtain ⟨bs, hbs, h⟩ := except_bind_ok h
      cases h
      obtain ⟨hlen, hpt⟩ := ih hbs
      refine ⟨by simp [hlen], ?_⟩
      intro i x hx
      cases i with
      | zero =>
          simp at hx
          subst hx
          exact ⟨b, by simp, hb⟩
      | succ j =>
          simp only [List.getElem?_cons_succ] at hx ⊢
          exact hpt j x hx

theorem jlookup_applyDefaults_of_some (ds : List (String × JValue)) :
    ∀ (fs : List (String × JValue)) (k : String) (v : JValue),
      jlookup fs k = some v → jlookup (applyDefaults fs ds) k = some v := by
  induction ds with
  | nil => intro fs k v h; simpa [applyDefaults] using h
  | cons hd tl ih =>
      intro fs k v h
      obtain ⟨k₀, d₀⟩ := hd
      simp only [applyDefaults]
      by_cases hk : hasKey fs k₀
      · rw [if_pos hk]
        exact ih fs k v h
      · rw [if_neg hk]
        apply ih
        by_cases hkk : k₀ = k
        · exact absurd (by rw [hkk]; simp [hasKey, h]) hk
        · rw [jlookup_setKey_ne fs k₀ k d₀ hkk]
          exact h

/-! ### Shared concrete instances used by witnesses and counterexamples -/

/-- A concrete session in `uploaded` state. -/
def sessionExample : Session :=
  { session_id := "s1", status := .uploaded, created_at := 0, updated_at := 0 }

/-! ### C2 -/

/-- C2: a message carrying `role: "system"` and no `type`. The field
normalizer maps the role to type `"system"` and its own `valid_types`
check accepts it, but the Pydantic `Message` model rejects it because
the `MessageType` enumeration has no `system` member, so the whole
dataset validation fails. The concrete role mappings of the claim are
also evaluated. -/
theorem C2_system_role_divergence :
    (∃ nfs, normalizeMessageFields (fun _ => none) [("role", .str "system"), ("content", .str "hi")] 0 = .ok nfs ∧
       jlookup nfs "type" = some (.str "system")) ∧
    (validate_messages_dataset (fun _ => none)
      (.obj [("messages", .arr [.obj [("role", .str "system"), ("content", .str "hi")]])])).isOk = false ∧
    (Message.fromJ (.obj [("type", .str "system"), ("id", .str "m0")])).isOk = false ∧
    roleMapping "user" = "human" ∧ roleMapping "assistant" = "ai" ∧ roleMapping "ai" = "ai" ∧
    roleMapping "system" = "system" ∧ roleMapping "tool" = "tool" ∧
    roleMapping "function" = "tool" ∧ roleMapping "unrecognized-role" = "ai" :=
  ⟨⟨_, rfl, rfl⟩, rfl, rfl, rfl, rfl, rfl, rfl, rfl, rfl, rfl⟩

/-! ### C3 -/

/-- C3 (amended): the transition operation always stamps `updated_at`;
a supplied non-empty error message is stored and forces status `error`
regardless of the requested target; with no error message a non-error
target requested from state `uploaded` is set verbatim. (A supplied
empty error message is falsy in the source and behaves like `None`.) -/
theorem C3_transition_amended (s : Session) (target : SessionStatus)
    (em : Option String) (now : Nat) :
    (s.update_status target em now).updated_at = now ∧
    (∀ m, em = some m → m ≠ "" →
      (s.update_status target em now).status = SessionStatus.error ∧
      (s.update_status target em now).error_message = some m) ∧
    (em = none → s.status = SessionStatus.uploaded → target ≠ SessionStatus.error →
      (s.update_status target em now).status = target) := by
  refine ⟨?_, ?_, ?_⟩
  · cases em with
    | none => rfl
    | some m =>
        by_cases hm : m = ""
        · simp [Session.update_status, hm]
        · by_cases ht : target = SessionStatus.error <;>
            simp [Session.update_status, hm, ht]
  · intro m hm hne
    subst hm
    by_cases ht : target = SessionStatus.error <;>
      simp [Session.update_status, hne, ht]
  · intro hnone _ _
    subst hnone
    rfl

/-- C3 witness: transitioning with the non-empty message "boom" forces
the `error` state and stores the message. -/
theorem C3_transition_witness :
    (sessionExample.update_status SessionStatus.analyzing (some "boom") 7).status = SessionStatus.error ∧
    (sessionExample.update_status SessionStatus.analyzing (some "boom") 7).error_message = some "boom" :=
  (C3_transition_amended sessionExample SessionStatus.analyzing (some "boom") 7).2.1 "boom" rfl
    (by decide)

/-- C3 counterexample: supplying the (empty) error message `""` does NOT
force status to `error` and does not store the message, contradicting
the claim for "every supplied error message". -/
theorem C3_transition_counterexample :
    (sessionExample.update_status SessionStatus.analyzing (some "") 5).status = SessionStatus.analyzing ∧
    (sessionExample.update_status SessionStatus.analyzing (some "") 5).status ≠ SessionStatus.error ∧
    (sessionExample.update_status SessionStatus.analyzing (some "") 5).error_message = none := by
  decide

/-! ### C5 -/

/-- C5: the input `{"agents": []}` is accepted by
`validate_agents_config` and yields an `AgentConfig` with zero agents —
the `AgentConfig` model has no non-emptiness constraint, although the
repo's own unit test (`test_validate_agents_config_invalid_format`)
expects a `ValidationError` here. -/
theorem C5_empty_agents_accepted :
    validate_agents_config (JValue.obj [("agents", JValue.arr [])]) =
      .ok { agents := [] } ∧
    ({ agents := [] } : AgentConfig).agents.length = 0 :=
  ⟨rfl, rfl⟩

/-! ### C7 -/

/-- C7 (amended): the optimization path unwraps any non-empty list whose
first element is a dict (not only single-element lists) to that first
element, passes dicts through, and hard-errors on every other shape; the
evaluation path has no list coercion at all — its enhancement step
errors on every list input. -/
theorem C7_list_unwrap_amended :
    (∀ fs : List (String × JValue), coerceOptimizationShape (.arr [.obj fs]) = .ok (.obj fs)) ∧
    (∀ fs rest, coerceOptimizationShape (.arr (JValue.obj fs :: rest)) = .ok (.obj fs)) ∧
    (∀ fs, coerceOptimizationShape (.obj fs) = .ok (.obj fs)) ∧
    (coerceOptimizationShape (.arr []) = .error "Unexpected list format in optimization result") ∧
    (∀ q, coerceOptimizationShape (.num q) = .error "Expected dict or list") ∧
    (∀ xs cfg ds, ∃ e, enhanceEvaluationResult (.arr xs) cfg ds = .error e) :=
  ⟨fun _ => rfl, fun _ _ => rfl, fun _ => rfl, rfl, fun _ => rfl,
   fun _ _ _ => ⟨"evaluation result is not an object", rfl⟩⟩

/-- C7 counterexample: on the same single-element list response the
optimization coercion succeeds (unwrapping), while the evaluation
enhancement is a hard error — refuting "both enhancers accept a
single-element list". -/
theorem C7_counterexample :
    coerceOptimizationShape (.arr [.obj [("overall_score", .num 5)]]) =
      .ok (.obj [("overall_score", .num 5)]) ∧
    enhanceEvaluationResult (.arr [.obj [("overall_score", .num 5)]])
      { agents := [] } { messages := [] } =
      .error "evaluation result is not an object" :=
  ⟨rfl, rfl⟩

/-! ### C10 -/

/-- C10: evaluation enhancement clamps the numeric `overall_score` and
every numeric dimension score to [0, 10]; the clamp sends values below 0
to 0, values above 10 to 10, and keeps in-range values unchanged. -/
theorem C10_score_clamping (fs : List (String × JValue)) (q : ℚ) (dims : List JValue)
    (cfg : AgentConfig) (ds : MessageDataset) (out : JValue)
    (hscore : jlookup fs "overall_score" = some (.num q))
    (hdims : jlookup fs "dimensions" = some (.arr dims))
    (henh : enhanceEvaluationResult (.obj fs) cfg ds = .ok out) :
    ∃ ofs dims', out = .obj ofs ∧
      jlookup ofs "overall_score" = some (.num (clampScore q)) ∧
      jlookup ofs "dimensions" = some (.arr dims') ∧
      dims'.length = dims.length ∧
      (∀ (i : Nat) (dfs : List (String × JValue)) (dq : ℚ),
        dims[i]? = some (.obj dfs) → jlookup dfs "score" = some (.num dq) →
        ∃ dfs', dims'[i]? = some (.obj dfs') ∧
          jlookup dfs' "score" = some (.num (clampScore dq))) ∧
      (∀ r : ℚ, (r < 0 → clampScore r = 0) ∧ (10 < r → clampScore r = 10) ∧
        (0 ≤ r → r ≤ 10 → clampScore r = r)) := by
  have hd2 : jlookup (setKey (applyDefaults fs requiredEvalDefaults) "metadata"
      (evalMetadata cfg ds)) "overall_score" = some (.num q) := by
    rw [jlookup_setKey_ne _ _ _ _ (by decide)]
    exact jlookup_applyDefaults_of_some _ _ _ _ hscore
  have hdim3 : jlookup (setKey (setKey (applyDefaults fs requiredEvalDefaults) "metadata"
      (evalMetadata cfg ds)) "overall_score" (JValue.num (clampScore q))) "dimensions" =
      some (.arr dims) := by
    rw [jlookup_setKey_ne _ _ _ _ (by decide), jlookup_setKey_ne _ _ _ _ (by decide)]
    exact jlookup_applyDefaults_of_some _ _ _ _ hdims
  simp only [enhanceEvaluationResult, hd2, Option.getD_some, pyFloat, Bind.bind,
    Except.bind, hdim3] at henh
  obtain ⟨dims', hmap, hout⟩ :=
    @except_bind_ok _ _ (mapE enhanceDimElem dims) _ _ henh
  simp only [Pure.pure, Except.pure, Except.ok.injEq] at hout
  obtain ⟨hlen, hpt⟩ := mapE_ok_spec hmap
  refine ⟨_, dims', hout.symm, ?_, ?_, hlen, ?_, ?_⟩
  · rw [jlookup_setKey_ne _ _ _ _ (by decide), jlookup_setKey_self]
  · rw [jlookup_setKey_self]
  · intro i dfs dq hdi hsc
    obtain ⟨y, hy, hfy⟩ := hpt i _ hdi
    have hkey : hasKey dfs "score" = true := by simp [hasKey, hsc]
    simp only [enhanceDimElem, hkey, if_true, hsc, Option.getD_some, pyFloat, Bind.bind,
      Except.bind, Pure.pure, Except.pure, Except.ok.injEq] at hfy
    exact ⟨_, by rw [hy, ← hfy], jlookup_setKey_self _ _ _⟩
  · intro r
    refine ⟨fun h => ?_, fun h => ?_, fun h0 h10 => ?_⟩
    · have h1 : min 10 r = r := min_eq_right (le_of_lt (lt_trans h (by norm_num)))
      simp [clampScore, h1, max_eq_left (le_of_lt h)]
    · have h1 : min 10 r = (10 : ℚ) := min_eq_left (le_of_lt h)
      simp [clampScore, h1]
    · simp [clampScore, min_eq_right h10, max_eq_right h0]

/-- A raw evaluation result with out-of-range scores, for the C10 witness. -/
def evalRawExample : List (String × JValue) :=
  [("overall_score", .num 15),
   ("dimensions", .arr [.obj [("name", .str "clarity"), ("score", .num (-3))]])]

/-- The enhanced output of `evalRawExample` against an empty config and
dataset. -/
def evalOutExample : JValue :=
  (enhanceEvaluationResult (.obj evalRawExample) { agents := [] } { messages := [] }).toOption.getD .null

/-- C10 witness: the score 15 is clamped to 10 and the dimension score
-3 to 0 on a concrete enhanced result. -/
theorem C10_score_clamping_witness :
    ∃ ofs dims', evalOutExample = .obj ofs ∧
      jlookup ofs "overall_score" = some (.num (clampScore 15)) ∧
      jlookup ofs "dimensions" = some (.arr dims') ∧
      dims'.length = [JValue.obj [("name", .str "clarity"), ("score", .num (-3))]].length ∧
      (∀ (i : Nat) (dfs : List (String × JValue)) (dq : ℚ),
        [JValue.obj [("name", .str "clarity"), ("score", .num (-3))]][i]? = some (.obj dfs) →
        jlookup dfs "score" = some (.num dq) →
        ∃ dfs', dims'[i]? = some (.obj dfs') ∧
          jlookup dfs' "score" = some (.num (clampScore dq))) ∧
      (∀ r : ℚ, (r < 0 → clampScore r = 0) ∧ (10 < r → clampScore r = 10) ∧
        (0 ≤ r → r ≤ 10 → clampScore r = r)) :=
  C10_score_clamping evalRawExample 15
    [JValue.obj [("name", .str "clarity"), ("score", .num (-3))]]
    { agents := [] } { messages := [] } evalOutExample rfl rfl rfl

/-! ### C6 -/

/-- C6 (amended): for an agent-like object `A` containing `agent_id` and
NOT containing an `agents` key, the inputs `{"agents":[A]}`, `[A]` and
`A` all normalize identically (and to a single-agent config when
normalization succeeds). The extra proviso is needed because the format
detector checks for an `agents` key before the `agent_id` key. -/
theorem C6_format_invariance_amended (A : List (String × JValue))
    (hid : hasKey A "agent_id" = true) (hnoagents : hasKey A "agents" = false) :
    validate_agents_config (.obj [("agents", .arr [.obj A])]) =
      validate_agents_config (.arr [.obj A]) ∧
    validate_agents_config (.obj A) = validate_agents_config (.arr [.obj A]) ∧
    ∀ cfg, validate_agents_config (.obj A) = .ok cfg → cfg.agents.length = 1 := by
  have hfmt1 : normalizeAgentsConfigFormat (.obj [("agents", .arr [.obj A])]) =
      .ok (.obj [("agents", .arr [.obj A])]) := by
    simp [normalizeAgentsConfigFormat, hasKey, jlookup]
  have hfmt2 : normalizeAgentsConfigFormat (.arr [.obj A]) =
      .ok (.obj [("agents", .arr [.obj A])]) := rfl
  have hfmt3 : normalizeAgentsConfigFormat (.obj A) =
      .ok (.obj [("agents", .arr [.obj A])]) := by
    simp [normalizeAgentsConfigFormat, hnoagents, hid]
  have hv : ∀ d, normalizeAgentsConfigFormat d = .ok (.obj [("agents", .arr [.obj A])]) →
      validate_agents_config d =
        (do
          let normalized ← normalizeAgentsLoop 0 [.obj A]
          let agents ← mapE Agent.fromJ normalized
          .ok { agents := agents } : Except String AgentConfig) := by
    intro d hd
    simp [validate_agents_config, hd, jlookup, iterElems, Bind.bind, Except.bind]
  refine ⟨by rw [hv _ hfmt1, hv _ hfmt2], by rw [hv _ hfmt3, hv _ hfmt2], ?_⟩
  intro cfg hcfg
  rw [hv _ hfmt3] at hcfg
  obtain ⟨normalized, hn, hcfg⟩ := except_bind_ok hcfg
  obtain ⟨agents, hag, hcfg⟩ := except_bind_ok hcfg
  cases hcfg
  simp only [normalizeAgentsLoop, Bind.bind, Except.bind] at hn
  cases hna : normalizeAgentFields A 0 with
  | error e => rw [hna] at hn; cases hn
  | ok na =>
      rw [hna] at hn
      cases hn
      have := (mapE_ok_spec hag).1
      simpa using this

/-- C6 witness: a concrete minimal agent object with only `agent_id` and
`system_prompt` keys satisfies the amended invariance. -/
theorem C6_format_invariance_witness :
    validate_agents_config
        (.obj [("agents", .arr [.obj [("agent_id", .str "w1"), ("system_prompt", .str "p")]])]) =
      validate_agents_config (.arr [.obj [("agent_id", .str "w1"), ("system_prompt", .str "p")]]) ∧
    validate_agents_config (.obj [("agent_id", .str "w1"), ("system_prompt", .str "p")]) =
      validate_agents_config (.arr [.obj [("agent_id", .str "w1"), ("system_prompt", .str "p")]]) ∧
    ∀ cfg, validate_agents_config (.obj [("agent_id", .str "w1"), ("system_prompt", .str "p")]) =
      .ok cfg → cfg.agents.length = 1 :=
  C6_format_invariance_amended [("agent_id", .str "w1"), ("system_prompt", .str "p")] rfl rfl

/-- C6 counterexample: the agent-like object
`{"agent_id": "x", "system_prompt": "p", "agents": []}` normalizes to a
ZERO-agent config when passed bare (the `agents` key wins format
detection), but to a one-agent config when wrapped — the three formats
are not equivalent for every agent-like object containing `agent_id`. -/
theorem C6_format_invariance_counterexample :
    validate_agents_config
        (.obj [("agent_id", .str "x"), ("system_prompt", .str "p"), ("agents", .arr [])]) =
      .ok { agents := [] } ∧
    validate_agents_config
        (.obj [("agents", .arr [.obj [("agent_id", .str "x"), ("system_prompt", .str "p"),
          ("agents", .arr [])]])]) =
      .ok { agents := [{ agent_id := "x", agent_name := "x", system_prompt := "p" }] } ∧
    validate_agents_config
        (.obj [("agent_id", .str "x"), ("system_prompt", .str "p"), ("agents", .arr [])]) ≠
      validate_agents_config
        (.obj [("agents", .arr [.obj [("agent_id", .str "x"), ("system_prompt", .str "p"),
          ("agents", .arr [])]])]) := by
  refine ⟨rfl, rfl, ?_⟩
  decide

/-! ### C1 -/

theorem validateEntry_ok_some (cfg : AgentConfig) (e v : JValue)
    (h : validateOptimizedAgentEntry cfg e = .ok (some v)) :
    ∃ s, entryAgentId v = some s ∧ s ∈ cfg.get_agent_ids ∧ entryAgentId e = some s := by
  cases e with
  | obj efs =>
      cases hid : jlookup efs "agent_id" with
      | none => simp [validateOptimizedAgentEntry, hid] at h
      | some w =>
          cases w with
          | null => simp [validateOptimizedAgentEntry, hid] at h
          | bool b => simp [validateOptimizedAgentEntry, hid] at h
          | num q => simp [validateOptimizedAgentEntry, hid] at h
          | arr xs =>
              by_cases he : xs.isEmpty <;> simp [validateOptimizedAgentEntry, hid, he] at h
          | obj ofs =>
              by_cases he : ofs.isEmpty <;> simp [validateOptimizedAgentEntry, hid, he] at h
          | str s =>
              simp only [validateOptimizedAgentEntry, hid] at h
              by_cases hs : s = ""
              · simp [hs] at h
              · rw [if_neg hs] at h
                by_cases hmem : s ∈ cfg.get_agent_ids
                · rw [if_pos hmem] at h
                  cases horig : cfg.get_agent_by_id s with
                  | none => rw [horig] at h; simp at h
                  | some orig =>
                      rw [horig] at h
                      simp only [Except.ok.injEq, Option.some.injEq] at h
                      subst h
                      exact ⟨s, by simp [entryAgentId, jlookup], hmem,
                        by simp [entryAgentId, hid]⟩
                · rw [if_neg hmem] at h; simp at h
  | null => simp [validateOptimizedAgentEntry] at h
  | bool b => simp [validateOptimizedAgentEntry] at h
  | num q => simp [validateOptimizedAgentEntry] at h
  | str s => simp [validateOptimizedAgentEntry] at h
  | arr xs => simp [validateOptimizedAgentEntry] at h

theorem validateLoop_ids (cfg : AgentConfig) :
    ∀ (es vs : List JValue), validateOptimizedLoop cfg es = .ok vs →
      (∀ v ∈ vs, ∃ s, entryAgentId v = some s ∧ s ∈ cfg.get_agent_ids) ∧
      (vs.filterMap entryAgentId).Sublist (es.filterMap entryAgentId) := by
  intro es
  induction es with
  | nil =>
      intro vs h
      simp only [validateOptimizedLoop, Except.ok.injEq] at h
      subst h
      simp
  | cons e rest ih =>
      intro vs h
      simp only [validateOptimizedLoop] at h
      obtain ⟨ventry, hventry, h⟩ := except_bind_ok h
      obtain ⟨tail, htail, h⟩ := except_bind_ok h
      obtain ⟨hmemTail, hsubTail⟩ := ih tail htail
      cases ventry with
      | none =>
          simp only [Except.ok.injEq] at h
          subst h
          refine ⟨hmemTail, hsubTail.trans ?_⟩
          cases hEid : entryAgentId e with
          | none => simp [List.filterMap_cons, hEid]
          | some s =>
              simp only [List.filterMap_cons, hEid]
              exact List.sublist_cons_self _ _
      | some entry =>
          simp only [Except.ok.injEq] at h
          subst h
          obtain ⟨s, hsv, hsmem, hse⟩ := validateEntry_ok_some cfg e entry hventry
          constructor
          · intro v hv
            rcases List.mem_cons.mp hv with hv | hv
            · subst hv; exact ⟨s, hsv, hsmem⟩
            · exact hmemTail v hv
          · simp only [List.filterMap_cons, hsv, hse]
            exact hsubTail.cons₂ s

theorem entryAgentId_fallback (a : Agent) :
    entryAgentId (fallbackAgentEntry a) = some a.agent_id := by
  simp [entryAgentId, fallbackAgentEntry, jlookup]

/-- C1 (amended): the enhanced `optimized_agents` list is exactly the
validated/repaired entries followed by a fallback entry per unrepresented
original agent; its set of agent ids equals the original id set, and it
is duplicate-free provided the original ids are pairwise distinct and the
response's entries carry pairwise-distinct string `agent_id` values.
(Without the last proviso, a response repeating an original id yields
duplicate entries: the loop does not deduplicate.) -/
theorem C1_optimized_completeness_amended (cfg : AgentConfig) (raw : List (String × JValue))
    (rfs : List (String × JValue)) (entries : List JValue) (out : JValue)
    (hentries : jlookup raw "optimized_agents" = some (.arr entries))
    (henh : enhanceOptimizationResult (.obj raw) cfg rfs = .ok out) :
    ∃ ofs validated vs, out = .obj ofs ∧
      validateOptimizedLoop cfg entries = .ok validated ∧
      vs = validated ++ (cfg.agents.filter
        (fun a => a.agent_id ∉ validated.filterMap entryAgentId)).map fallbackAgentEntry ∧
      jlookup ofs "optimized_agents" = some (.arr vs) ∧
      (∀ s, s ∈ vs.filterMap entryAgentId ↔ s ∈ cfg.get_agent_ids) ∧
      (cfg.get_agent_ids.Nodup → (entries.filterMap entryAgentId).Nodup →
        (vs.filterMap entryAgentId).Nodup) := by
  have h1 : jlookup (applyDefaults raw requiredOptDefaults) "optimized_agents" =
      some (.arr entries) := jlookup_applyDefaults_of_some _ _ _ _ hentries
  simp only [enhanceOptimizationResult, h1, Option.getD_some, iterElems, Bind.bind,
    Except.bind] at henh
  obtain ⟨vs, hvs, henh⟩ := except_bind_ok henh
  obtain ⟨validated, hloop, heq⟩ := except_bind_ok (by
    simpa only [validateOptimizedAgents, Bind.bind, Except.bind] using hvs)
  simp only [Except.ok.injEq] at heq
  obtain ⟨n, hn, henh⟩ := except_bind_ok henh
  obtain ⟨stats, hstats, henh⟩ := except_bind_ok henh
  simp only [Except.ok.injEq] at henh
  obtain ⟨hmemV, hsubV⟩ := validateLoop_ids cfg entries validated hloop
  refine ⟨_, validated, vs, henh.symm, hloop, heq.symm, ?_, ?_, ?_⟩
  · rw [jlookup_setKey_ne _ _ _ _ (by decide), jlookup_setKey_ne _ _ _ _ (by decide),
      jlookup_setKey_self]
  · intro s
    subst heq
    rw [List.filterMap_append, List.mem_append]
    have hfb : ((cfg.agents.filter
        (fun a => a.agent_id ∉ validated.filterMap entryAgentId)).map
          fallbackAgentEntry).filterMap entryAgentId =
        (cfg.agents.filter
          (fun a => a.agent_id ∉ validated.filterMap entryAgentId)).map Agent.agent_id := by
      rw [List.filterMap_map]
      rw [show (entryAgentId ∘ fallbackAgentEntry) = some ∘ Agent.agent_id from
        funext fun a => entryAgentId_fallback a]
      exact congrFun (List.filterMap_eq_map _) _
    rw [hfb]
    constructor
    · rintro (hs | hs)
      · obtain ⟨v, hv, hvs⟩ := List.mem_filterMap.mp hs
        obtain ⟨s', hs', hmem'⟩ := hmemV v hv
        rw [hs'] at hvs
        simp only [Option.some.injEq] at hvs
        exact hvs ▸ hmem'
      · obtain ⟨a, ha, has⟩ := List.mem_map.mp hs
        subst has
        exact List.mem_map.mpr ⟨a, List.mem_of_mem_filter ha, rfl⟩
    · intro hs
      obtain ⟨a, ha, has⟩ := List.mem_map.mp hs
      by_cases hin : s ∈ validated.filterMap entryAgentId
      · exact Or.inl hin
      · refine Or.inr (List.mem_map.mpr ⟨a, List.mem_filter.mpr ⟨ha, ?_⟩, has⟩)
        subst has
        simpa using hin
  · intro hids hents
    subst heq
    rw [List.filterMap_append]
    have hfb : ((cfg.agents.filter
        (fun a => a.agent_id ∉ validated.filterMap entryAgentId)).map
          fallbackAgentEntry).filterMap entryAgentId =
        (cfg.agents.filter
          (fun a => a.agent_id ∉ validated.filterMap entryAgentId)).map Agent.agent_id := by
      rw [List.filterMap_map]
      rw [show (entryAgentId ∘ fallbackAgentEntry) = some ∘ Agent.agent_id from
        funext fun a => entryAgentId_fallback a]
      exact congrFun (List.filterMap_eq_map _) _
    rw [hfb]
    refine List.Nodup.append (hents.sublist hsubV) ?_ ?_
    · exact hids.sublist ((List.filter_sublist cfg.agents).map Agent.agent_id)
    · intro s hsv hsf
      obtain ⟨a, ha, has⟩ := List.mem_map.mp hsf
      have hna := (List.mem_filter.mp ha).2
      subst has
      simp only [decide_eq_true_eq] at hna
      exact hna hsv

/-- A two-agent config for the C1 witness. -/
def cfgTwoAgents : AgentConfig :=
  { agents := [{ agent_id := "a1", agent_name := "A1", system_prompt := "p1" },
               { agent_id := "a2", agent_name := "A2", system_prompt := "p2" }] }

/-- A raw optimization result mentioning only agent `a1`. -/
def optRawExample : List (String × JValue) :=
  [("optimized_agents", .arr [.obj [("agent_id", .str "a1"),
    ("optimized_system_prompt", .str "better p1")]])]

/-- The enhanced optimization output for the C1 witness. -/
def optOutExample : JValue :=
  (enhanceOptimizationResult (.obj optRawExample) cfgTwoAgents []).toOption.getD .null

/-- C1 witness: enhancing a response that mentions only `a1` of the
two-agent config yields an optimized list whose id set is exactly
`{a1, a2}` with no duplicates. -/
theorem C1_optimized_completeness_witness :
    ∃ ofs validated vs, optOutExample = .obj ofs ∧
      validateOptimizedLoop cfgTwoAgents
        [.obj [("agent_id", .str "a1"), ("optimized_system_prompt", .str "better p1")]] =
        .ok validated ∧
      vs = validated ++ (cfgTwoAgents.agents.filter
        (fun a => a.agent_id ∉ validated.filterMap entryAgentId)).map fallbackAgentEntry ∧
      jlookup ofs "optimized_agents" = some (.arr vs) ∧
      (∀ s, s ∈ vs.filterMap entryAgentId ↔ s ∈ cfgTwoAgents.get_agent_ids) ∧
      (cfgTwoAgents.get_agent_ids.Nodup →
        ([JValue.obj [("agent_id", .str "a1"), ("optimized_system_prompt", .str "better p1")]].filterMap
          entryAgentId).Nodup →
        (vs.filterMap entryAgentId).Nodup) :=
  C1_optimized_completeness_amended cfgTwoAgents optRawExample []
    [.obj [("agent_id", .str "a1"), ("optimized_system_prompt", .str "better p1")]]
    optOutExample rfl rfl

/-- A one-agent config for the C1 counterexample. -/
def cfgOneAgent : AgentConfig :=
  { agents := [{ agent_id := "a1", agent_name := "A1", system_prompt := "p1" }] }

/-- C1 counterexample: a response repeating `agent_id: "a1"` twice yields
an `optimized_agents` list containing TWO entries for `a1` — the id set
still equals the original set but the list has duplicates, refuting the
claim's "no duplicates" for every LLM response. -/
theorem C1_optimized_completeness_counterexample :
    ∃ out ofs vs,
      enhanceOptimizationResult
        (.obj [("optimized_agents",
          .arr [.obj [("agent_id", .str "a1")], .obj [("agent_id", .str "a1")]])])
        cfgOneAgent [] = .ok out ∧
      out = .obj ofs ∧
      jlookup ofs "optimized_agents" = some (.arr vs) ∧
      vs.filterMap entryAgentId = ["a1", "a1"] ∧
      ¬ (vs.filterMap entryAgentId).Nodup :=
  ⟨_, _, _, rfl, rfl, rfl, rfl, by decide⟩

/-! ### C8 -/

theorem mem_unique_agents (ds : MessageDataset) (s : String) :
    s ∈ ds.get_unique_agents ↔
      ∃ m ∈ ds.messages, m.type = MessageType.ai ∧ m.name = some s ∧ s ≠ "" := by
  unfold MessageDataset.get_unique_agents
  rw [List.mem_dedup, List.mem_filterMap]
  constructor
  · rintro ⟨m, hm, hf⟩
    split at hf
    · rename_i t heq
      split at hf
      · rename_i hc
        simp only [Option.some.injEq] at hf
        subst hf
        exact ⟨m, hm, hc.2, heq, hc.1⟩
      · cases hf
    · cases hf
  · rintro ⟨m, hm, hai, hname, hs⟩
    refine ⟨m, hm, ?_⟩
    rw [hname]
    show (if s ≠ "" ∧ m.type = MessageType.ai then some s else none) = some s
    rw [if_pos ⟨hs, hai⟩]

theorem flow_warning_shape (ds : MessageDataset) (w : CrossWarning)
    (hw : w ∈ checkConversationFlow ds) :
    ∃ a b, w = CrossWarning.orphanToolResponse a b := by
  simp only [checkConversationFlow, List.mem_filterMap] at hw
  obtain ⟨i, _, hi⟩ := hw
  cases ho : orphanAt ds.messages i with
  | none => rw [ho] at hi; cases hi
  | some p =>
      rw [ho] at hi
      simp only [Option.map_some', Option.some.injEq] at hi
      exact ⟨p.1, p.2, hi.symm⟩

theorem toolsWarning_shape (ct mt : List String) (w : CrossWarning)
    (hw : w ∈ (checkMissingTools ct mt).1) :
    ∃ ns, w = CrossWarning.toolsMissingInConfig ns := by
  simp only [checkMissingTools] at hw
  by_cases he : (mt.filter (fun n => n ∉ ct)).isEmpty
  · rw [if_pos he] at hw; cases hw
  · rw [if_neg he] at hw
    simp only [List.mem_singleton] at hw
    exact ⟨_, hw⟩

/-- C8 (amended): cross-validation records the missing-agents warning
plus the corresponding recommendation exactly when some `ai`-typed
message carries a (truthy) name absent from the config's list of agent
DISPLAY NAMES (`get_agent_names`, the `agent_name` values) — not the
agent-identifier set — and the warning carries exactly those unknown
names. (The two coincide when names were defaulted from ids.) -/
theorem C8_missing_agent_warning_amended (cfg : AgentConfig) (ds : MessageDataset)
    (report : CrossValidationReport)
    (h : validate_session_files cfg ds = .ok report) :
    ((∃ names, CrossWarning.agentsMissingInConfig names ∈ report.warnings) ↔
      ∃ m ∈ ds.messages, m.type = MessageType.ai ∧
        ∃ s, m.name = some s ∧ s ≠ "" ∧ s ∉ cfg.get_agent_names) ∧
    (CrossRecommendation.addMissingAgents ∈ report.recommendations ↔
      ∃ m ∈ ds.messages, m.type = MessageType.ai ∧
        ∃ s, m.name = some s ∧ s ≠ "" ∧ s ∉ cfg.get_agent_names) ∧
    (∀ names, CrossWarning.agentsMissingInConfig names ∈ report.warnings →
      names = missingAgentsInConfig cfg.get_agent_names ds.get_unique_agents ∧
      names ≠ []) := by
  simp only [validate_session_files, List.isEmpty_nil, if_true, Except.ok.injEq] at h
  subst h
  have hrhs : missingAgentsInConfig cfg.get_agent_names ds.get_unique_agents ≠ [] ↔
      ∃ m ∈ ds.messages, m.type = MessageType.ai ∧
        ∃ s, m.name = some s ∧ s ≠ "" ∧ s ∉ cfg.get_agent_names := by
    constructor
    · intro hne
      obtain ⟨s, hs⟩ := List.exists_mem_of_ne_nil _ hne
      unfold missingAgentsInConfig at hs
      obtain ⟨hsu, hsp⟩ := List.mem_filter.mp hs
      simp only [decide_eq_true_eq] at hsp
      obtain ⟨m, hm, hai, hname, hsne⟩ := (mem_unique_agents ds s).mp hsu
      exact ⟨m, hm, hai, s, hname, hsne, hsp⟩
    · rintro ⟨m, hm, hai, s, hname, hsne, hnotin⟩
      have hsu : s ∈ ds.get_unique_agents := (mem_unique_agents ds s).mpr ⟨m, hm, hai, hname, hsne⟩
      have : s ∈ missingAgentsInConfig cfg.get_agent_names ds.get_unique_agents :=
        List.mem_filter.mpr ⟨hsu, by simpa using hnotin⟩
      intro hnil
      rw [hnil] at this
      exact List.not_mem_nil s this
  by_cases hm : missingAgentsInConfig cfg.get_agent_names ds.get_unique_agents = []
  · have hmiss : ¬ ∃ m ∈ ds.messages, m.type = MessageType.ai ∧
        ∃ s, m.name = some s ∧ s ≠ "" ∧ s ∉ cfg.get_agent_names := by
      intro hc
      exact (hrhs.mpr hc) hm
    have hempty : (missingAgentsInConfig cfg.get_agent_names ds.get_unique_agents).isEmpty = true := by
      rw [hm]; rfl
    have hnomem : ∀ names, CrossWarning.agentsMissingInConfig names ∉
        ((checkMissingAgents cfg.get_agent_names ds.get_unique_agents).1 ++
         (checkMissingTools ((cfg.agents.map (fun a => a.tools.map AgentTool.name)).flatten.dedup)
           ds.get_unique_tools).1 ++ checkConversationFlow ds) := by
      intro names hmem
      rw [List.append_assoc, List.mem_append] at hmem
      rcases hmem with hmem | hmem
      · simp only [checkMissingAgents, hempty, if_true, List.nil_append] at hmem
        by_cases h2 : (cfg.get_agent_names.filter (fun n => n ∉ ds.get_unique_agents)).isEmpty
        · rw [if_pos h2] at hmem; cases hmem
        · rw [if_neg h2] at hmem
          simp only [List.mem_singleton] at hmem
          cases hmem
      · rw [List.mem_append] at hmem
        rcases hmem with hmem | hmem
        · obtain ⟨ns, hns⟩ := toolsWarning_shape _ _ _ hmem
          cases hns
        · obtain ⟨a, b, hab⟩ := flow_warning_shape _ _ hmem
          cases hab
    refine ⟨iff_of_false (fun ⟨names, hmem⟩ => hnomem names hmem) hmiss, ?_, ?_⟩
    · refine iff_of_false ?_ hmiss
      intro hmem
      simp only [checkMissingAgents, hempty, if_true, List.mem_append] at hmem
      rcases hmem with hmem | hmem
      · cases hmem
      · simp only [checkMissingTools] at hmem
        by_cases h2 : (ds.get_unique_tools.filter
            (fun n => n ∉ (cfg.agents.map (fun a => a.tools.map AgentTool.name)).flatten.dedup)).isEmpty
        · rw [if_pos h2] at hmem; cases hmem
        · rw [if_neg h2] at hmem
          simp only [List.mem_singleton] at hmem
          cases hmem
    · intro names hmem
      exact absurd hmem (hnomem names)
  · have hmiss := hrhs.mp hm
    have hempty : (missingAgentsInConfig cfg.get_agent_names ds.get_unique_agents).isEmpty = false := by
      cases he : missingAgentsInConfig cfg.get_agent_names ds.get_unique_agents with
      | nil => exact absurd he hm
      | cons a l => rfl
    refine ⟨iff_of_true ?_ hmiss, iff_of_true ?_ hmiss, ?_⟩
    · refine ⟨missingAgentsInConfig cfg.get_agent_names ds.get_unique_agents, ?_⟩
      rw [List.append_assoc, List.mem_append]
      left
      simp [checkMissingAgents, hempty]
    · simp [checkMissingAgents, hempty]
    · intro names hmem
      rw [List.append_assoc, List.mem_append] at hmem
      rcases hmem with hmem | hmem
      · simp only [checkMissingAgents, hempty, if_false, List.mem_append] at hmem
        rcases hmem with hmem | hmem
        · have hn : names = missingAgentsInConfig cfg.get_agent_names ds.get_unique_agents := by
            simpa using hmem
          exact ⟨hn, hn ▸ hm⟩
        · by_cases h2 : (cfg.get_agent_names.filter (fun n => n ∉ ds.get_unique_agents)).isEmpty
          · rw [if_pos h2] at hmem
            exact absurd hmem (List.not_mem_nil _)
          · rw [if_neg h2] at hmem
            simp at hmem
      · rw [List.mem_append] at hmem
        rcases hmem with hmem | hmem
        · obtain ⟨ns, hns⟩ := toolsWarning_shape _ _ _ hmem
          cases hns
        · obtain ⟨a, b, hab⟩ := flow_warning_shape _ _ hmem
          cases hab

/-- A config whose agent has id `a1` but display name `Alpha`, and a
dataset whose `ai` message is named by the id `a1` — for the C8
counterexample. -/
def cfgIdVsName : AgentConfig :=
  { agents := [{ agent_id := "a1", agent_name := "Alpha", system_prompt := "p" }] }

/-- The dataset naming the agent by its id, for the C8 counterexample. -/
def dsIdNamed : MessageDataset :=
  { messages := [{ type := .ai, name := some "a1", id := "m1" }] }

/-- C8 counterexample: the message's name `a1` IS a declared agent
identifier, yet the missing-agents warning and recommendation fire,
because the code compares against display names (`get_agent_names`),
not the identifier set — refuting the claim's "exactly when absent from
the declared agent identifiers". -/
theorem C8_missing_agent_warning_counterexample :
    ∃ report, validate_session_files cfgIdVsName dsIdNamed = .ok report ∧
      CrossWarning.agentsMissingInConfig ["a1"] ∈ report.warnings ∧
      CrossRecommendation.addMissingAgents ∈ report.recommendations ∧
      (∀ m ∈ dsIdNamed.messages, ∀ s, m.name = some s → s ∈ cfgIdVsName.get_agent_ids) :=
  ⟨_, rfl, by decide, by decide, by decide⟩

/-- The report produced by cross-validating `cfgIdVsName` against
`dsIdNamed` (used by the C8 witness). -/
def crossReportExample : CrossValidationReport :=
  (validate_session_files cfgIdVsName dsIdNamed).toOption.getD
    { agents_count := 0, messages_count := 0, unique_agents_in_messages := 0,
      unique_tools_in_messages := 0, warnings := [], recommendations := [], errors := [] }

/-- C8 witness: the amended equivalence evaluated on a concrete config
and dataset. -/
theorem C8_missing_agent_warning_witness :
    (∃ names, CrossWarning.agentsMissingInConfig names ∈ crossReportExample.warnings) ↔
      ∃ m ∈ dsIdNamed.messages, m.type = MessageType.ai ∧
        ∃ s, m.name = some s ∧ s ≠ "" ∧ s ∉ cfgIdVsName.get_agent_names :=
  (C8_missing_agent_warning_amended cfgIdVsName dsIdNamed crossReportExample rfl).1

/-! ### C9 -/

theorem msg_id_inj (i j : Nat) (h : "msg_" ++ natDecimal i = "msg_" ++ natDecimal j) :
    i = j := by
  have hd : ("msg_" : String).data ++ (natDecimal i).data =
      ("msg_" : String).data ++ (natDecimal j).data := congrArg String.data h
  have hdd : (natDecimal i).data = (natDecimal j).data := List.append_cancel_left hd
  exact natDecimal_injective (congrArg String.mk hdd)

theorem normalizeMessageFields_id (jl : String → Option JValue) (fs : List (String × JValue))
    (idx : Nat) (nfs : List (String × JValue))
    (h : normalizeMessageFields jl fs idx = .ok nfs) :
    jlookup nfs "id" = some ((jlookup fs "id").getD (.str ("msg_" ++ natDecimal idx))) := by
  simp only [normalizeMessageFields] at h
  obtain ⟨typev, htv, h⟩ := except_bind_ok h
  obtain ⟨u, hu, h⟩ := except_bind_ok h
  obtain ⟨tcPart, htc, h⟩ := except_bind_ok h
  simp only [Except.ok.injEq] at h
  subst h
  simp [jlookup_append, jlookup]

theorem Message_fromJ_id (nfs : List (String × JValue)) (m : Message)
    (h : Message.fromJ (.obj nfs) = .ok m) : reqStr nfs "id" = .ok m.id := by
  simp only [Message.fromJ] at h
  obtain ⟨c, hc, h⟩ := except_bind_ok h
  obtain ⟨t, ht, h⟩ := except_bind_ok h
  obtain ⟨nm, hnm, h⟩ := except_bind_ok h
  obtain ⟨i, hi, h⟩ := except_bind_ok h
  obtain ⟨ex, hex, h⟩ := except_bind_ok h
  obtain ⟨tc, htc, h⟩ := except_bind_ok h
  obtain ⟨itc, hitc, h⟩ := except_bind_ok h
  obtain ⟨um, hum, h⟩ := except_bind_ok h
  obtain ⟨tci, htci, h⟩ := except_bind_ok h
  obtain ⟨ar, har, h⟩ := except_bind_ok h
  obtain ⟨st, hst, h⟩ := except_bind_ok h
  simp only [Except.ok.injEq] at h
  subst h
  simpa using hi

theorem normalizeMessagesLoop_ids (jl : String → Option JValue) :
    ∀ (ms : List JValue) (start : Nat) (nms : List JValue),
      normalizeMessagesLoop jl start ms = .ok nms →
      (∀ m ∈ ms, ∀ fs, m = JValue.obj fs → hasKey fs "id" = false) →
      nms.length = ms.length ∧
      ∀ (k : Nat) (v : JValue), nms[k]? = some v →
        ∃ nfs, v = JValue.obj nfs ∧
          jlookup nfs "id" = some (.str ("msg_" ++ natDecimal (start + k))) := by
  intro ms
  induction ms with
  | nil =>
      intro start nms h _
      simp only [normalizeMessagesLoop, Except.ok.injEq] at h
      subst h
      exact ⟨rfl, by intro k v hv; simp at hv⟩
  | cons m rest ih =>
      intro start nms h hno
      cases m with
      | obj fs =>
          simp only [normalizeMessagesLoop] at h
          obtain ⟨nm, hnm, h⟩ := except_bind_ok h
          obtain ⟨tail, htail, h⟩ := except_bind_ok h
          simp only [Except.ok.injEq] at h
          subst h
          obtain ⟨hlen, hpt⟩ :=
            ih (start + 1) tail htail (fun m hm => hno m (List.mem_cons_of_mem _ hm))
          refine ⟨by simp [hlen], ?_⟩
          intro k v hv
          cases k with
          | zero =>
              simp only [List.getElem?_cons_zero, Option.some.injEq] at hv
              subst hv
              have hid := normalizeMessageFields_id jl fs start nm hnm
              have hnokey := hno (JValue.obj fs) (List.mem_cons_self _ _) fs rfl
              refine ⟨nm, rfl, ?_⟩
              rw [hid]
              have hnone : jlookup fs "id" = none := by
                cases hj : jlookup fs "id" with
                | none => rfl
                | some w => simp [hasKey, hj] at hnokey
              simp [hnone]
          | succ j =>
              simp only [List.getElem?_cons_succ] at hv
              obtain ⟨nfs, hv', hid⟩ := hpt j v hv
              refine ⟨nfs, hv', ?_⟩
              rw [hid]
              have harith : start + 1 + j = start + (j + 1) := by omega
              rw [harith]
      | null => simp [normalizeMessagesLoop] at h
      | bool b => simp [normalizeMessagesLoop] at h
      | num q => simp [normalizeMessagesLoop] at h
      | str s => simp [normalizeMessagesLoop] at h
      | arr xs => simp [normalizeMessagesLoop] at h

/-- C9 (amended): the normalizer synthesizes `msg_{index}` ids for
messages lacking one, so in a dataset where NO message supplies an id
the resulting ids are `msg_0 .. msg_{n-1}` and pairwise distinct; but
supplied ids are copied verbatim with no uniqueness check, so they may
collide. -/
theorem C9_unique_ids_amended (jl : String → Option JValue) (ms : List JValue)
    (ds : MessageDataset)
    (hnoid : ∀ m ∈ ms, ∀ fs, m = JValue.obj fs → hasKey fs "id" = false)
    (h : validate_messages_dataset jl (.obj [("messages", .arr ms)]) = .ok ds) :
    (∀ (k : Nat) (msg : Message), ds.messages[k]? = some msg →
      msg.id = "msg_" ++ natDecimal k) ∧
    (ds.messages.map Message.id).Nodup := by
  simp only [validate_messages_dataset, normalizeMessagesFormat, hasKey, jlookup,
    Option.isSome_some, if_true, Option.getD_some, Bind.bind, Except.bind,
    Pure.pure, Except.pure] at h
  by_cases hempty : ms.isEmpty
  · rw [if_pos hempty] at h
    cases h
  · rw [if_neg hempty] at h
    obtain ⟨normalized, hloop, h⟩ := except_bind_ok h
    obtain ⟨messages, hmapE, h⟩ := except_bind_ok h
    simp only [Except.ok.injEq] at h
    subst h
    obtain ⟨hlenLoop, hptLoop⟩ := normalizeMessagesLoop_ids jl ms 0 normalized hloop hnoid
    obtain ⟨hlenMap, hptMap⟩ := mapE_ok_spec hmapE
    have hpoint : ∀ (k : Nat) (msg : Message), messages[k]? = some msg →
        msg.id = "msg_" ++ natDecimal k := by
      intro k msg hk
      have hklt : k < messages.length := by
        rcases List.getElem?_eq_some_iff.mp hk with ⟨hlt, _⟩
        exact hlt
      have hkn : k < normalized.length := by omega
      have hv : normalized[k]? = some normalized[k] := List.getElem?_eq_getElem hkn
      obtain ⟨y, hy, hfy⟩ := hptMap k _ hv
      rw [hk] at hy
      simp only [Option.some.injEq] at hy
      subst hy
      obtain ⟨nfs, hobj, hid⟩ := hptLoop k _ hv
      rw [hobj] at hfy
      have hreq := Message_fromJ_id nfs msg hfy
      simp only [Nat.zero_add] at hid
      simp only [reqStr, hid, Except.ok.injEq] at hreq
      exact hreq.symm
    refine ⟨hpoint, ?_⟩
    have hids : messages.map Message.id =
        (List.range messages.length).map (fun k => "msg_" ++ natDecimal k) := by
      apply List.ext_getElem
      · simp
      · intro k h1 h2
        have hk : k < messages.length := by simpa using h1
        simp only [List.getElem_map, List.getElem_range]
        exact hpoint k messages[k] (List.getElem?_eq_getElem hk)
    rw [hids]
    exact (List.nodup_range _).map (fun a b hab => msg_id_inj a b hab)

/-- The input of two id-less messages used by the C9 witness. -/
def msgsNoIds : List JValue :=
  [.obj [("role", .str "user"), ("content", .str "hi")],
   .obj [("role", .str "assistant"), ("content", .str "hello")]]

/-- The dataset obtained from `msgsNoIds` (C9 witness). -/
def dsNoIds : MessageDataset :=
  (validate_messages_dataset (fun _ => none) (.obj [("messages", .arr msgsNoIds)])).toOption.getD
    { messages := [] }

/-- C9 witness: with no supplied ids, the two normalized messages carry
`msg_0` and `msg_1` and the id list is duplicate-free. -/
theorem C9_unique_ids_witness :
    (∀ (k : Nat) (msg : Message), dsNoIds.messages[k]? = some msg →
      msg.id = "msg_" ++ natDecimal k) ∧
    (dsNoIds.messages.map Message.id).Nodup :=
  C9_unique_ids_amended (fun _ => none) msgsNoIds dsNoIds
    (by
      intro m hm fs hfs
      simp only [msgsNoIds, List.mem_cons, List.not_mem_nil, or_false] at hm
      rcases hm with rfl | rfl <;> (cases hfs; rfl))
    rfl

/-- C9 counterexample: two messages both SUPPLYING id `"x"` validate
successfully into a dataset whose ids are `["x", "x"]` — not pairwise
distinct, refuting the uniqueness claim for supplied ids. -/
theorem C9_unique_ids_counterexample :
    ∃ ds, validate_messages_dataset (fun _ => none)
        (.obj [("messages", .arr
          [.obj [("id", .str "x"), ("type", .str "human")],
           .obj [("id", .str "x"), ("type", .str "human")]])]) = .ok ds ∧
      ds.messages.map Message.id = ["x", "x"] ∧
      ¬ (ds.messages.map Message.id).Nodup :=
  ⟨_, rfl, rfl, by decide⟩

/-! ### C4 -/

theorem AgentTool_roundtrip (t : AgentTool) : AgentTool.fromJ t.dump = .ok t := by
  cases t with
  | mk name description parameters =>
      cases parameters <;>
        simp [AgentTool.fromJ, AgentTool.dump, dumpOptObj, reqStr, optObj, jlookup,
          Bind.bind, Except.bind]

theorem agentTools_roundtrip (ts : List AgentTool) :
    mapE AgentTool.fromJ (ts.map AgentTool.dump) = .ok ts := by
  induction ts with
  | nil => rfl
  | cons t ts ih =>
      simp [mapE, AgentTool_roundtrip, ih, Bind.bind, Except.bind]

theorem normalizeAgentFields_dump (a : Agent) (i : Nat) :
    normalizeAgentFields [("agent_id", .str a.agent_id), ("agent_name", .str a.agent_name),
      ("version", .str a.version), ("system_prompt", .str a.system_prompt),
      ("tools", .arr (a.tools.map AgentTool.dump)), ("metadata", dumpOptObj a.metadata)] i =
    .ok [("agent_id", .str a.agent_id), ("agent_name", .str a.agent_name),
      ("system_prompt", .str a.system_prompt), ("tools", .arr (a.tools.map AgentTool.dump))] := by
  simp [normalizeAgentFields, firstPresent, jlookup, Bind.bind, Except.bind,
    Pure.pure, Except.pure]

theorem AgentFromJ_norm (a : Agent) (hver : a.version = "1.0") (hmeta : a.metadata = none) :
    Agent.fromJ (.obj [("agent_id", .str a.agent_id), ("agent_name", .str a.agent_name),
      ("system_prompt", .str a.system_prompt),
      ("tools", .arr (a.tools.map AgentTool.dump))]) = .ok a := by
  cases a with
  | mk aid an ver sp ts md =>
      simp only at hver hmeta
      subst hver
      subst hmeta
      simp [Agent.fromJ, reqStr, agentVersion, agentTools, optObj, jlookup,
        agentTools_roundtrip, Bind.bind, Except.bind]

theorem agentsLoop_roundtrip (l : List Agent)
    (hyp : ∀ a ∈ l, a.version = "1.0" ∧ a.metadata = none) :
    ∀ i, ∃ nl, normalizeAgentsLoop i (l.map Agent.dump) = .ok nl ∧
      mapE Agent.fromJ nl = .ok l := by
  induction l with
  | nil => intro i; exact ⟨[], rfl, rfl⟩
  | cons a l ih =>
      intro i
      obtain ⟨nl, hnl, hmE⟩ := ih (fun a ha => hyp a (List.mem_cons_of_mem _ ha)) (i + 1)
      have ha := hyp a (List.mem_cons_self _ _)
      refine ⟨JValue.obj [("agent_id", .str a.agent_id), ("agent_name", .str a.agent_name),
        ("system_prompt", .str a.system_prompt),
        ("tools", .arr (a.tools.map AgentTool.dump))] :: nl, ?_, ?_⟩
      · simp [normalizeAgentsLoop, Agent.dump, normalizeAgentFields_dump, hnl,
          Bind.bind, Except.bind]
      · simp [mapE, AgentFromJ_norm a ha.1 ha.2, hmE, Bind.bind, Except.bind]

theorem validate_agents_roundtrip (cfg : AgentConfig)
    (hver : cfg.version = some "1.0") (hmeta : cfg.metadata = none)
    (hagents : ∀ a ∈ cfg.agents, a.version = "1.0" ∧ a.metadata = none) :
    validate_agents_config cfg.dump = .ok cfg := by
  obtain ⟨nl, hnl, hmE⟩ := agentsLoop_roundtrip cfg.agents hagents 0
  cases cfg with
  | mk agents version metadata =>
      simp only at hver hmeta
      subst hver
      subst hmeta
      simp [validate_agents_config, AgentConfig.dump, normalizeAgentsConfigFormat,
        hasKey, jlookup, iterElems, hnl, hmE, Bind.bind, Except.bind]

/-- The fields `_normalize_tool_calls` produces for a dumped `ToolCall`
(the `type` key is dropped). -/
def normalizedToolCallFields (tc : ToolCall) : List (String × JValue) :=
  [("name", .str tc.name), ("args", .obj tc.args), ("id", .str tc.id)]

/-- The fields `_normalize_message_fields` produces for a dumped
`Message` (the `invalid_tool_calls`, `usage_metadata`, `artifact` and
`status` keys are dropped). -/
def normalizedMessageFieldsOf (m : Message) : List (String × JValue) :=
  [("id", .str m.id), ("content", .str m.content), ("type", .str m.type.value),
   ("name", dumpOptStr m.name), ("example", .bool m.exampleFlag),
   ("tool_call_id", dumpOptStr m.tool_call_id),
   ("tool_calls", .arr (m.tool_calls.map (fun tc => JValue.obj (normalizedToolCallFields tc))))]

theorem toolCallEntry_dump (jl : String → Option JValue) (tc : ToolCall) (n : Nat) :
    normalizeToolCallEntry jl (ToolCall.dump tc) n = .ok (some (normalizedToolCallFields tc)) := by
  simp [normalizeToolCallEntry, ToolCall.dump, normalizedToolCallFields, jlookup, hasKey,
    Bind.bind, Except.bind, Pure.pure, Except.pure]

theorem toolCallsLoop_dump (jl : String → Option JValue) (tcs : List ToolCall) :
    ∀ n, normalizeToolCallsLoop jl (tcs.map ToolCall.dump) n =
      .ok (tcs.map normalizedToolCallFields) := by
  induction tcs with
  | nil => intro n; rfl
  | cons tc tcs ih =>
      intro n
      simp [normalizeToolCallsLoop, toolCallEntry_dump, ih, Bind.bind, Except.bind]

theorem normalizeToolCalls_dump (jl : String → Option JValue) (tcs : List ToolCall) :
    normalizeToolCalls jl (.arr (tcs.map ToolCall.dump)) =
      .ok (tcs.map (fun tc => JValue.obj (normalizedToolCallFields tc))) := by
  simp [normalizeToolCalls, iterElems, toolCallsLoop_dump, Bind.bind, Except.bind]

theorem ToolCallFromJ_norm (tc : ToolCall) (htype : tc.type = "tool_call") :
    ToolCall.fromJ (.obj (normalizedToolCallFields tc)) = .ok tc := by
  cases tc with
  | mk name args id type =>
      simp only at htype
      subst htype
      simp [ToolCall.fromJ, normalizedToolCallFields, reqStr, toolCallArgs, toolCallType,
        jlookup, Bind.bind, Except.bind]

theorem toolCalls_fromJ_norm (tcs : List ToolCall)
    (h : ∀ tc ∈ tcs, tc.type = "tool_call") :
    mapE ToolCall.fromJ (tcs.map (fun tc => JValue.obj (normalizedToolCallFields tc))) =
      .ok tcs := by
  induction tcs with
  | nil => rfl
  | cons tc tcs ih =>
      simp [mapE, ToolCallFromJ_norm tc (h tc (List.mem_cons_self _ _)),
        ih (fun tc htc => h tc (List.mem_cons_of_mem _ htc)), Bind.bind, Except.bind]

theorem normalizeMessageFields_dump (jl : String → Option JValue) (m : Message) (i : Nat) :
    normalizeMessageFields jl
      [("content", .str m.content), ("type", .str m.type.value),
       ("name", dumpOptStr m.name), ("id", .str m.id),
       ("example", .bool m.exampleFlag),
       ("tool_calls", .arr (m.tool_calls.map ToolCall.dump)),
       ("invalid_tool_calls", .arr (m.invalid_tool_calls.map JValue.obj)),
       ("usage_metadata", dumpOptObj m.usage_metadata),
       ("tool_call_id", dumpOptStr m.tool_call_id),
       ("artifact", dumpOptObj m.artifact),
       ("status", dumpOptStr m.status)] i = .ok (normalizedMessageFieldsOf m) := by
  cases m with
  | mk content type name id ex tcs itcs um tci art st =>
      cases type <;>
        simp [normalizeMessageFields, normalizedMessageFieldsOf, messageTypeValue,
          checkValidType, messageToolCallsPart, normalizeToolCalls_dump, MessageType.value,
          jlookup, hasKey, Bind.bind, Except.bind, Pure.pure, Except.pure]

theorem MessageFromJ_norm (m : Message) (hitc : m.invalid_tool_calls = [])
    (hum : m.usage_metadata = none) (hart : m.artifact = none) (hst : m.status = none)
    (htc : ∀ tc ∈ m.tool_calls, tc.type = "tool_call") :
    Message.fromJ (.obj (normalizedMessageFieldsOf m)) = .ok m := by
  cases m with
  | mk content type name id ex tcs itcs um tci art st =>
      simp only at hitc hum hart hst
      subst hitc
      subst hum
      subst hart
      subst hst
      cases type <;> cases name <;> cases tci <;>
        simp [Message.fromJ, normalizedMessageFieldsOf, msgContent, msgType, optStr, reqStr,
          msgExampleFlag, msgToolCalls, msgInvalidToolCalls, optObj, MessageType.value,
          dumpOptStr, jlookup, toolCalls_fromJ_norm tcs htc, Bind.bind, Except.bind]

theorem messagesLoop_roundtrip (jl : String → Option JValue) (l : List Message)
    (hyp : ∀ m ∈ l, m.invalid_tool_calls = [] ∧ m.usage_metadata = none ∧
      m.artifact = none ∧ m.status = none ∧ ∀ tc ∈ m.tool_calls, tc.type = "tool_call") :
    ∀ i, ∃ nl, normalizeMessagesLoop jl i (l.map Message.dump) = .ok nl ∧
      mapE Message.fromJ nl = .ok l := by
  induction l with
  | nil => intro i; exact ⟨[], rfl, rfl⟩
  | cons m l ih =>
      intro i
      obtain ⟨nl, hnl, hmE⟩ := ih (fun m hm => hyp m (List.mem_cons_of_mem _ hm)) (i + 1)
      obtain ⟨h1, h2, h3, h4, h5⟩ := hyp m (List.mem_cons_self _ _)
      refine ⟨JValue.obj (normalizedMessageFieldsOf m) :: nl, ?_, ?_⟩
      · simp [normalizeMessagesLoop, Message.dump, normalizeMessageFields_dump, hnl,
          Bind.bind, Except.bind]
      · simp [mapE, MessageFromJ_norm m h1 h2 h3 h4 h5, hmE, Bind.bind, Except.bind]

theorem validate_messages_roundtrip (jl : String → Option JValue) (ds : MessageDataset)
    (hmeta : ds.metadata = none) (hne : ds.messages ≠ [])
    (hmsgs : ∀ m ∈ ds.messages, m.invalid_tool_calls = [] ∧ m.usage_metadata = none ∧
      m.artifact = none ∧ m.status = none ∧ ∀ tc ∈ m.tool_calls, tc.type = "tool_call") :
    validate_messages_dataset jl ds.dump = .ok ds := by
  obtain ⟨nl, hnl, hmE⟩ := messagesLoop_roundtrip jl ds.messages hmsgs 0
  cases ds with
  | mk messages metadata =>
      simp only at hmeta hne hmsgs
      subst hmeta
      have hnonempty : (messages.map Message.dump).isEmpty = false := by
        cases messages with
        | nil => exact absurd rfl hne
        | cons a l => rfl
      simp [validate_messages_dataset, MessageDataset.dump, normalizeMessagesFormat,
        hasKey, jlookup, hnonempty, hnl, hmE, Bind.bind, Except.bind, Pure.pure,
        Except.pure, hne]

/-- C4 (amended): re-normalizing the canonical JSON shape reproduces the
original structure exactly when the fields the normalizer drops hold
their defaults — agent `version` `"1.0"`, agent/config/dataset
`metadata` absent, config `version` `"1.0"`, message
`invalid_tool_calls` empty, `usage_metadata`/`artifact`/`status` absent,
and every tool-call `type` at its default `"tool_call"`. The
re-normalized core (ids, names, prompts, tools, message
id/content/type/name/example/tool_call_id/tool_calls) always survives;
the dropped fields are reset to defaults rather than preserved. -/
theorem C4_roundtrip_amended (cfg : AgentConfig) (ds : MessageDataset)
    (jl : String → Option JValue)
    (hver : cfg.version = some "1.0") (hmeta : cfg.metadata = none)
    (hagents : ∀ a ∈ cfg.agents, a.version = "1.0" ∧ a.metadata = none)
    (hdsmeta : ds.metadata = none) (hne : ds.messages ≠ [])
    (hmsgs : ∀ m ∈ ds.messages, m.invalid_tool_calls = [] ∧ m.usage_metadata = none ∧
      m.artifact = none ∧ m.status = none ∧ ∀ tc ∈ m.tool_calls, tc.type = "tool_call") :
    validate_agents_config cfg.dump = .ok cfg ∧
    validate_messages_dataset jl ds.dump = .ok ds :=
  ⟨validate_agents_roundtrip cfg hver hmeta hagents,
   validate_messages_roundtrip jl ds hdsmeta hne hmsgs⟩

/-- A canonical config exercising tools and name fields (C4 witness). -/
def cfgCanonical : AgentConfig :=
  { agents := [{ agent_id := "a1", agent_name := "Agent One", system_prompt := "be helpful",
                 tools := [{ name := "search", description := "find things" }] }] }

/-- A canonical dataset exercising tool calls (C4 witness). -/
def dsCanonical : MessageDataset :=
  { messages := [{ type := .ai, name := some "a1", id := "m1", content := "hi",
                   tool_calls := [{ name := "search", args := [("q", .str "x")], id := "c1" }] },
                 { type := .tool, id := "m2", tool_call_id := some "c1" }] }

/-- C4 witness: the amended round trip evaluated on a concrete canonical
config and dataset. -/
theorem C4_roundtrip_witness :
    validate_agents_config cfgCanonical.dump = .ok cfgCanonical ∧
    validate_messages_dataset (fun _ => none) dsCanonical.dump = .ok dsCanonical :=
  C4_roundtrip_amended cfgCanonical dsCanonical (fun _ => none) rfl rfl
    (by intro a ha; simp [cfgCanonical] at ha; subst ha; exact ⟨rfl, rfl⟩)
    rfl (by simp [dsCanonical])
    (by
      intro m hm
      simp [dsCanonical] at hm
      rcases hm with rfl | rfl
      · refine ⟨rfl, rfl, rfl, rfl, ?_⟩
        intro tc htc
        simp at htc
        subst htc
        rfl
      · exact ⟨rfl, rfl, rfl, rfl, by intro tc htc; simp at htc⟩)

/-- A canonical config whose agent carries the non-default version
`"2.0"` (C4 counterexample). -/
def cfgVersioned : AgentConfig :=
  { agents := [{ agent_id := "a1", agent_name := "A", version := "2.0",
                 system_prompt := "p" }] }

/-- C4 counterexample: an agent with version `"2.0"` round-trips to an
agent with version `"1.0"` — re-normalizing the canonical shape is NOT
the identity for every canonical structure; the agent version does not
survive. -/
theorem C4_roundtrip_counterexample :
    ∃ cfg', validate_agents_config cfgVersioned.dump = .ok cfg' ∧
      cfg' ≠ cfgVersioned ∧
      (∃ a, cfg'.agents = [a] ∧ a.version = "1.0" ∧
        ∃ a0, cfgVersioned.agents = [a0] ∧ a0.version = "2.0") :=
  ⟨_, rfl, by decide, ⟨_, rfl, rfl, _, rfl, rfl⟩⟩

end CtxOpt
